import Mathlib

/-!
Shallow embedding of the LIT card-game server (`src/server.js`) and proofs
about its room/game state machine.

Modelling conventions:
* Socket ids (`socket.id`) are strings (`PlayerId`).
* The random string card ids produced by `Math.random().toString(36)` are
  modelled as distinct natural numbers assigned by deck position; a shuffled
  deck is an arbitrary permutation of `fullDeck` (same cards, same ids).
* `Math.random()`-driven choices (shuffle permutation, random index) are
  parameters of the corresponding operation, constrained by `WfAct`.
* Each socket handler becomes a pure function `Room → … → Room × Outcome`.
  JS mutates the room object in place, so state mutated before an early
  `return` persists; the embedding returns that partially-mutated room
  together with the outcome.  `Outcome.err e` models
  `socket.emit('error', …)` to the acting connection, `Outcome.silent`
  models a `return` with no emission, `Outcome.ok` models the success path.
* `lastAction` is an audit string; its exact text is irrelevant to every
  claim, so the embedding uses abbreviated message strings.
-/

abbrev PlayerId := String

inductive Suit | spades | hearts | diamonds | clubs
deriving DecidableEq

inductive Rank
  | ace | two | three | four | five | six
  | eight | nine | ten | jack | queen | king
deriving DecidableEq

inductive SetType | lower | upper
deriving DecidableEq

inductive Team | unassigned | red | blue
deriving DecidableEq, Inhabited

inductive GameStatus | waiting | playing | finished
deriving DecidableEq

inductive Winner | red | blue | draw
deriving DecidableEq

structure Card where
  suit : Suit
  rank : Rank
  setType : SetType
  id : Nat
deriving DecidableEq

/-- A requested card as sent by a client: `(suit, rank, setType)`; the
server compares only these three fields (`isValidRequest`, `transferCard`). -/
structure CardSpec where
  suit : Suit
  rank : Rank
  setType : SetType
deriving DecidableEq

structure Seat where
  id : PlayerId
  name : String
  team : Team
  hand : List Card
  connected : Bool
  /-- absent (`undefined`, falsy) on a freshly created player object -/
  canClaimTurn : Bool := false
deriving DecidableEq, Inhabited

structure CapturedSet where
  suit : Suit
  setType : SetType
  team : Team
deriving DecidableEq

structure Room where
  roomName : String
  players : List Seat
  currentTurnPlayerId : Option PlayerId
  capturedSets : List CapturedSet
  gameStatus : GameStatus
  winner : Option Winner
  adminId : PlayerId
  lastAction : Option String
  playerCount : Nat
deriving DecidableEq

inductive ReqReason
  | onlyFromOpponents
  | targetHasNoCards
  | alreadyHaveCard
  | needCardFromSameSet
deriving DecidableEq

inductive GameError
  | roomNotFound
  | roomFull
  | nameTaken
  | roomExists
  | playerNotFound
  | notYourTurn
  | invalidRequest (reason : ReqReason)
  | gameNotInProgress
  | playerNotFoundOrDisconnected
  | mustHaveCardFromSet
  | noOpposingCards
  | notEligibleToClaim
  | notAdmin
  | needExactPlayers
  | teamsUnbalanced
  | teamFull
deriving DecidableEq

/-- `ok` = success path, `err` = `socket.emit('error', …)` to the acting
connection, `silent` = an early `return` that emits nothing. -/
inductive Outcome
  | ok
  | err (e : GameError)
  | silent
deriving DecidableEq

structure Declaration where
  suit : Suit
  setType : SetType
deriving DecidableEq

structure CardRequest where
  targetPlayerId : PlayerId
  requestedCard : CardSpec
deriving DecidableEq

/-! ## Deck engine (`createAndShuffleDeck`, `requiredRanks`) -/

def lowerRanksList : List Rank := [.ace, .two, .three, .four, .five, .six]

def upperRanksList : List Rank := [.eight, .nine, .ten, .jack, .queen, .king]

def suitsList : List Suit := [.spades, .hearts, .diamonds, .clubs]

/-- The 48-card deck as built by `createAndShuffleDeck` before shuffling:
for each suit, the six lower ranks (setType `lower`) then the six upper
ranks (setType `upper`).  Card ids are the (distinct) positions 0..47,
standing in for the random id strings. -/
def fullDeck : List Card :=
  ((suitsList.map fun s =>
      (lowerRanksList.map fun rk => Card.mk s rk .lower 0) ++
      (upperRanksList.map fun rk => Card.mk s rk .upper 0)).flatten).enum.map
    fun p => { p.2 with id := p.1 }

def fullDeckM : Multiset Card := (fullDeck : Multiset Card)

/-- `setType === 'lower' ? ['ace',…,'6'] : ['8',…,'king']` -/
def requiredRanks : SetType → List Rank
  | .lower => lowerRanksList
  | .upper => upperRanksList

/-- A card whose rank group matches its setType (true of every deck card). -/
def WfCard (c : Card) : Prop := c.rank ∈ requiredRanks c.setType

/-! ## Pure helpers from `server.js` -/

/-- `isValidRequest(requestingPlayer, targetPlayer, requestedCard)`. -/
def isValidRequest (rp tp : Seat) (rc : CardSpec) : Option ReqReason :=
  -- 1. Player can only request from opposing team
  if rp.team = tp.team ∨ tp.team = .unassigned then
    some .onlyFromOpponents
  -- 2. Check if target player has any cards
  else if tp.hand.length = 0 then
    some .targetHasNoCards
  -- 3. Player cannot request a card they already have
  else if rp.hand.any fun c =>
      decide (c.suit = rc.suit ∧ c.rank = rc.rank ∧ c.setType = rc.setType) then
    some .alreadyHaveCard
  -- 4. Player must have at least one card from the same set as the requested card
  else if ¬ rp.hand.any fun c => decide (c.suit = rc.suit ∧ c.setType = rc.setType) then
    some .needCardFromSameSet
  else
    none

structure TransferResult where
  fromPlayer : Seat
  toPlayer : Seat
  success : Bool

/-- `transferCard(fromPlayer, toPlayer, suit, rank, setType)`: find the card
by `(suit, rank, setType)`; on a hit, splice it out of the first matching
position of `fromPlayer.hand` and push it onto `toPlayer.hand`. -/
def transferCard (fromP toP : Seat) (s : Suit) (rk : Rank) (t : SetType) :
    TransferResult :=
  let pred := fun c : Card => decide (c.suit = s ∧ c.rank = rk ∧ c.setType = t)
  match fromP.hand.find? pred with
  | none => ⟨fromP, toP, false⟩
  | some c =>
      ⟨{ fromP with hand := fromP.hand.eraseP pred },
       { toP with hand := toP.hand ++ [c] }, true⟩

/-- `teamHasCompleteSet(players, team, suit, setType)`: the union of the
team's hands covers every required rank of that suit (the source compares
suit and rank only, not setType). -/
def teamHasCompleteSet (players : List Seat) (team : Team) (s : Suit)
    (t : SetType) : Bool :=
  let teamCards := (players.filter fun p => decide (p.team = team)).flatMap (·.hand)
  (requiredRanks t).all fun rk =>
    teamCards.any fun c => decide (c.suit = s ∧ c.rank = rk)

def redCount (cs : List CapturedSet) : Nat :=
  (cs.filter fun e => decide (e.team = .red)).length

def blueCount (cs : List CapturedSet) : Nat :=
  (cs.filter fun e => decide (e.team = .blue)).length

/-- `checkWinCondition(capturedSets)`. -/
def checkWinCondition (cs : List CapturedSet) : Option Winner :=
  let redSets := redCount cs
  let blueSets := blueCount cs
  let totalSets := redSets + blueSets
  if 4 < redSets then some .red
  else if 4 < blueSets then some .blue
  else if totalSets = 8 then
    if blueSets < redSets then some .red
    else if redSets < blueSets then some .blue
    else some .draw
  else none

/-- Body of the `getNextPlayer` while loop: starting at index `j`, scan
cyclically for a connected player, giving up (`none`, caller keeps the
current player) once the scan comes back around to `ci`. -/
def getNextPlayerLoop (players : List Seat) (ci : Nat) :
    Nat → Nat → Option PlayerId
  | 0, _ => none
  | fuel + 1, j =>
      match players.get? j with
      | none => none
      | some sᵢ =>
          if sᵢ.connected then some sᵢ.id
          else
            let j' := (j + 1) % players.length
            if j' = ci then none else getNextPlayerLoop players ci fuel j'

/-- `getNextPlayer(currentPlayerId, players)`. -/
def getNextPlayer (pid : PlayerId) (players : List Seat) : PlayerId :=
  match players.findIdx? fun p => decide (p.id = pid) with
  | none => ((players.headD default).id)  -- `players[0].id`; rooms are never empty
  | some ci =>
      (getNextPlayerLoop players ci (players.length + 1)
        ((ci + 1) % players.length)).getD pid

/-! ## Socket handlers (`io.on('connection', …)` bodies), one function each -/

def clearClaim (p : Seat) : Seat := { p with canClaimTurn := false }

def newSeat (cid : PlayerId) (nm : String) : Seat :=
  { id := cid, name := nm, team := .unassigned, hand := [], connected := true }

/-- In-place takeover of the first seat whose `name` matches:
`existingPlayer.id = socket.id; existingPlayer.connected = true`. -/
def rebindFirst (nm : String) (cid : PlayerId) : List Seat → List Seat
  | [] => []
  | p :: ps =>
      if p.name = nm then { p with id := cid, connected := true } :: ps
      else p :: rebindFirst nm cid ps

/-- `socket.on('joinRoom', …)` for an existing room. -/
def joinRoom (r : Room) (cid : PlayerId) (nm : String) : Room × Outcome :=
  -- Check if room is full (this comes BEFORE the same-name reconnection check)
  if r.playerCount ≤ r.players.length then (r, .err .roomFull)
  else
    match r.players.find? fun p => decide (p.name = nm) with
    | some p =>
        if p.connected then (r, .err .nameTaken)
        else ({ r with players := rebindFirst nm cid r.players }, .ok)
    | none => ({ r with players := r.players ++ [newSeat cid nm] }, .ok)

/-- `socket.on('createRoom', …)` when the room name is already taken:
reconnection takeover / NameTaken / RoomExists (no capacity check here). -/
def createRoomExisting (r : Room) (cid : PlayerId) (nm : String) : Room × Outcome :=
  match r.players.find? fun p => decide (p.name = nm) with
  | some p =>
      if p.connected then (r, .err .nameTaken)
      else ({ r with players := rebindFirst nm cid r.players }, .ok)
  | none => (r, .err .roomExists)

/-- The fresh room object built by `createRoom` when the name is free. -/
def freshRoom (rn : String) (cid : PlayerId) (nm : String) (pc : Nat) : Room :=
  { roomName := rn
    players := [newSeat cid nm]
    currentTurnPlayerId := none
    capturedSets := []
    gameStatus := .waiting
    winner := none
    adminId := cid
    lastAction := none
    playerCount := pc }

/-- `socket.on('joinTeam', …)`. -/
def joinTeam (r : Room) (cid : PlayerId) (t : Team) : Room × Outcome :=
  match r.players.findIdx? fun p => decide (p.id = cid) with
  | none => (r, .err .playerNotFound)
  | some i =>
      let teamCount := (r.players.filter fun p => decide (p.team = t)).length
      let maxTeamSize := if r.playerCount = 6 then 3 else 4
      if maxTeamSize ≤ teamCount then (r, .err .teamFull)
      else
        match r.players.get? i with
        | some p => ({ r with players := r.players.set i { p with team := t } }, .ok)
        | none => (r, .ok)  -- unreachable: the index returned by findIdx? is in range

/-- `socket.on('shuffleTeams', …)`; the Fisher–Yates permutation is the
parameter `shuffled` (constrained to a permutation of the seats by `WfAct`). -/
def shuffleTeamsAssign (sz : Nat) : Nat → List Seat → List Seat
  | _, [] => []
  | i, p :: ps =>
      { p with team := if i < sz then .red else .blue } :: shuffleTeamsAssign sz (i + 1) ps

def shuffleTeams (r : Room) (cid : PlayerId) (shuffled : List Seat) : Room × Outcome :=
  if r.adminId ≠ cid then (r, .err .notAdmin)
  else
    let teamsSize := if r.playerCount = 6 then 3 else 4
    ({ r with players := shuffleTeamsAssign teamsSize 0 shuffled }, .ok)

/-- Dealing loop: `players[i].hand = deck.slice(i*cpp, (i+1)*cpp)`, i.e. each
seat in order takes the next `cpp` cards of the shuffled deck. -/
def dealTo (cpp : Nat) : List Card → List Seat → List Seat
  | _, [] => []
  | deck, p :: ps => { p with hand := deck.take cpp } :: dealTo cpp (deck.drop cpp) ps

/-- `socket.on('startGame', …)`; `deck` is the shuffled deck and `idx` the
random index of the starting player (both constrained by `WfAct`).
Note the source has no check that the game is not already running. -/
def startGame (r : Room) (cid : PlayerId) (deck : List Card) (idx : Nat) :
    Room × Outcome :=
  if r.adminId ≠ cid then (r, .err .notAdmin)
  else if r.players.length ≠ r.playerCount then (r, .err .needExactPlayers)
  else
    let teamSize := if r.playerCount = 6 then 3 else 4
    if (r.players.filter fun p => decide (p.team = .red)).length ≠ teamSize ∨
        (r.players.filter fun p => decide (p.team = .blue)).length ≠ teamSize then
      (r, .err .teamsUnbalanced)
    else
      let cardsPerPlayer := if r.playerCount = 6 then 8 else 6
      let ps := dealTo cardsPerPlayer deck r.players
      ({ r with
          players := ps
          currentTurnPlayerId := some (ps.getD idx default).id
          gameStatus := .playing }, .ok)

/-- `socket.on('requestCard', …)`. -/
def requestCard (r : Room) (cid : PlayerId) (req : CardRequest) : Room × Outcome :=
  -- `if (!room || room.gameStatus !== 'playing') return;` — silent drop
  if r.gameStatus ≠ .playing then (r, .silent)
  else if r.currentTurnPlayerId ≠ some cid then (r, .err .notYourTurn)
  else
    -- Reset claim turn eligibility for all players since a new action is starting
    let ps := r.players.map clearClaim
    let r1 := { r with players := ps }
    match ps.find? (fun p => decide (p.id = cid)),
          ps.find? (fun p => decide (p.id = req.targetPlayerId)) with
    | some rp, some tp =>
        match isValidRequest rp tp req.requestedCard with
        | some reason => (r1, .err (.invalidRequest reason))
        | none =>
            let tr := transferCard tp rp req.requestedCard.suit req.requestedCard.rank
              req.requestedCard.setType
            if tr.success then
              let ri := ps.findIdx fun p => decide (p.id = cid)
              let ti := ps.findIdx fun p => decide (p.id = req.targetPlayerId)
              ({ r1 with
                  players := (ps.set ri tr.toPlayer).set ti tr.fromPlayer
                  lastAction := some (rp.name ++ " received a card from " ++ tp.name) },
               .ok)
            else
              -- Card not found, turn goes to target player
              ({ r1 with
                  currentTurnPlayerId := some req.targetPlayerId
                  lastAction := some (rp.name ++ " asked " ++ tp.name ++ " and missed") },
               .ok)
    | _, _ => (r1, .err .playerNotFound)

/-- Qualifying opposing player for an incorrect declaration: on the winning
(opposing) team, connected, holding cards, holding a card of the declared set. -/
def contribPred (d : Declaration) (w : Team) (p : Seat) : Bool :=
  decide (p.team = w) && p.connected && decide (0 < p.hand.length) &&
    p.hand.any fun c => decide (c.suit = d.suit ∧ c.setType = d.setType)

/-- Opposing-team player holding any cards. -/
def oppPred (w : Team) (p : Seat) : Bool :=
  decide (p.team = w) && p.connected && decide (0 < p.hand.length)

/-- Strip every card of the declared `(suit, setType)` from a hand (the
source checks suit, membership of the rank in the required ranks, and
setType). -/
def stripSet (d : Declaration) (p : Seat) : Seat :=
  { p with hand := p.hand.filter fun c =>
      ! decide (c.suit = d.suit ∧ c.rank ∈ requiredRanks d.setType ∧
                c.setType = d.setType) }

/-- The `if (winner)` block at the end of `declareSet`. -/
def finishIfWon (r : Room) : Room :=
  match checkWinCondition r.capturedSets with
  | some w =>
      { r with
          gameStatus := .finished
          winner := some w
          lastAction := some "game over"
          currentTurnPlayerId := none
          players := r.players.map clearClaim }
  | none => r

/-- `socket.on('declareSet', …)`; `k` is the random index used to pick the
next turn holder on an incorrect declaration (bounded by `WfAct`; out of
range it falls back to the declarer, a case `WfAct` excludes). -/
def declareSet (r : Room) (cid : PlayerId) (d : Declaration) (k : Nat) :
    Room × Outcome :=
  if r.gameStatus ≠ .playing then (r, .err .gameNotInProgress)
  else
    -- Reset claim turn eligibility at the start of declaration
    let ps := r.players.map clearClaim
    let r1 := { r with players := ps }
    match ps.find? fun p => decide (p.id = cid) with
    | none => (r1, .err .playerNotFoundOrDisconnected)
    | some dp =>
        if ¬ dp.connected then (r1, .err .playerNotFoundOrDisconnected)
        else if ¬ dp.hand.any fun c =>
            decide (c.suit = d.suit ∧ c.setType = d.setType) then
          (r1, .err .mustHaveCardFromSet)
        else
          let hasSet := teamHasCompleteSet ps dp.team d.suit d.setType
          let setWinner := if hasSet then dp.team
                           else if dp.team = .red then Team.blue else Team.red
          -- turn handoff; `none` models the no-opposing-cards early return
          let handoff : Option (List Seat × PlayerId) :=
            if hasSet then
              some (ps.map fun p =>
                      if decide (p.team = dp.team) && decide (p.id ≠ dp.id) &&
                          p.connected && decide (0 < p.hand.length) then
                        { p with canClaimTurn := true }
                      else p,
                    dp.id)
            else
              let contributing := ps.filter (contribPred d setWinner)
              let opposingWithCards := ps.filter (oppPred setWinner)
              if contributing ≠ [] then
                let next := contributing.getD k dp
                some (ps.map fun p =>
                        if decide (p.team = setWinner) && decide (p.id ≠ next.id) &&
                            decide (0 < p.hand.length) then
                          { p with canClaimTurn := true }
                        else p,
                      next.id)
              else if opposingWithCards ≠ [] then
                let next := opposingWithCards.getD k dp
                some (ps.map fun p =>
                        if decide (p.team = setWinner) && decide (p.id ≠ next.id) &&
                            decide (0 < p.hand.length) then
                          { p with canClaimTurn := true }
                        else p,
                      next.id)
              else none
          match handoff with
          | none => (r1, .err .noOpposingCards)
          | some (ps2, nextId) =>
              let r2 := { r1 with
                            players := ps2
                            currentTurnPlayerId := some nextId
                            lastAction := some "set declared"
                            capturedSets :=
                              r1.capturedSets ++ [⟨d.suit, d.setType, setWinner⟩] }
              -- Check win condition after adding the set
              let r3 := finishIfWon r2
              -- Remove all cards from this set from all players' hands
              (⟨{ r3 with players := r3.players.map (stripSet d) }, .ok⟩ : Room × Outcome)

/-- `socket.on('claimTurn', …)`. -/
def claimTurn (r : Room) (cid : PlayerId) : Room × Outcome :=
  if r.gameStatus ≠ .playing then (r, .err .gameNotInProgress)
  else
    match r.players.find? fun p => decide (p.id = cid) with
    | none => (r, .err .playerNotFoundOrDisconnected)
    | some cp =>
        if ¬ cp.connected then (r, .err .playerNotFoundOrDisconnected)
        else if ¬ cp.canClaimTurn then (r, .err .notEligibleToClaim)
        else
          ({ r with
              currentTurnPlayerId := some cp.id
              lastAction := some (cp.name ++ " claimed the turn")
              players := r.players.map clearClaim }, .ok)

/-- `socket.on('disconnect', …)`, effect on one room containing the socket. -/
def handleDisconnect (r : Room) (cid : PlayerId) : Room :=
  match r.players.findIdx? fun p => decide (p.id = cid) with
  | none => r
  | some i =>
      let ps :=
        match r.players.get? i with
        | some p => r.players.set i { p with connected := false }
        | none => r.players  -- unreachable: findIdx? index is in range
      let turn' :=
        if r.currentTurnPlayerId = some cid ∧ r.gameStatus = .playing then
          some (getNextPlayer cid ps)
        else r.currentTurnPlayerId
      let admin' :=
        if r.adminId = cid then
          match ps.find? (·.connected) with
          | some p => p.id
          | none => r.adminId
        else r.adminId
      { r with players := ps, currentTurnPlayerId := turn', adminId := admin' }

/-! ## Room registry (`const gameRooms = new Map()`) -/

abbrev Registry := List (String × Room)

def regGet (g : Registry) (rn : String) : Option Room :=
  (g.find? fun e => decide (e.1 = rn)).map (·.2)

def regSet (g : Registry) (rn : String) (r : Room) : Registry :=
  if g.any fun e => decide (e.1 = rn) then
    g.map fun e => if e.1 = rn then (rn, r) else e
  else g ++ [(rn, r)]

/-- Full `socket.on('createRoom', …)` including the registry lookup. -/
def createRoom (g : Registry) (cid : PlayerId) (nm rn : String) (pc : Nat) :
    Registry × Outcome :=
  match regGet g rn with
  | some room =>
      let res := createRoomExisting room cid nm
      match res.2 with
      | .ok => (regSet g rn res.1, .ok)
      | o => (g, o)  -- error paths return before mutating anything
  | none => (regSet g rn (freshRoom rn cid nm pc), .ok)

/-- Full `socket.on('requestCard', …)` including the registry lookup; a
missing room is silently dropped. -/
def requestCardReg (g : Registry) (cid : PlayerId) (rn : String)
    (req : CardRequest) : Registry × Outcome :=
  match regGet g rn with
  | none => (g, .silent)
  | some room =>
      let res := requestCard room cid req
      (regSet g rn res.1, res.2)

/-! ## The per-room state machine

An `Act` is one inbound event touching a given room, together with the
values of the random choices the handler makes.  `WfAct` records the
environment guarantees: a joining connection is a genuinely new socket
(its id differs from every seat's id), the shuffle parameter is a
permutation, and random indices are in range. -/

inductive Act
  | join (cid : PlayerId) (nm : String)
  | createExisting (cid : PlayerId) (nm : String)
  | joinTeamAct (cid : PlayerId) (t : Team)
  | shuffle (cid : PlayerId) (shuffled : List Seat)
  | start (cid : PlayerId) (deck : List Card) (idx : Nat)
  | request (cid : PlayerId) (req : CardRequest)
  | declare (cid : PlayerId) (d : Declaration) (k : Nat)
  | claim (cid : PlayerId)
  | disconnect (cid : PlayerId)

def applyAct (a : Act) (r : Room) : Room × Outcome :=
  match a with
  | .join cid nm => joinRoom r cid nm
  | .createExisting cid nm => createRoomExisting r cid nm
  | .joinTeamAct cid t => joinTeam r cid t
  | .shuffle cid shuffled => shuffleTeams r cid shuffled
  | .start cid deck idx => startGame r cid deck idx
  | .request cid req => requestCard r cid req
  | .declare cid d k => declareSet r cid d k
  | .claim cid => claimTurn r cid
  | .disconnect cid => (handleDisconnect r cid, .ok)

/-- The random index passed to `declareSet` is in range for whichever list
(`contributingPlayers` / `opposingTeamPlayersWithCards`) the handler indexes:
`Math.floor(Math.random() * list.length) < list.length`. -/
def DeclareChoiceOk (r : Room) (cid : PlayerId) (d : Declaration) (k : Nat) : Prop :=
  let ps := r.players.map clearClaim
  match ps.find? fun p => decide (p.id = cid) with
  | none => True
  | some dp =>
      let hasSet := teamHasCompleteSet ps dp.team d.suit d.setType
      let setWinner := if hasSet then dp.team
                       else if dp.team = .red then Team.blue else Team.red
      let contributing := ps.filter (contribPred d setWinner)
      let opposingWithCards := ps.filter (oppPred setWinner)
      (contributing ≠ [] → k < contributing.length) ∧
      (contributing = [] → opposingWithCards ≠ [] → k < opposingWithCards.length)

def WfAct (a : Act) (r : Room) : Prop :=
  match a with
  | .join cid _ => cid ∉ r.players.map (·.id)
  | .createExisting cid _ => cid ∉ r.players.map (·.id)
  | .joinTeamAct _ _ => True
  | .shuffle _ shuffled => shuffled.Perm r.players
  | .start _ deck idx => deck.Perm fullDeck ∧ idx < r.players.length
  | .request _ _ => True
  | .declare cid d k => DeclareChoiceOk r cid d k
  | .claim _ => True
  | .disconnect _ => True

/-- One faithful step of the room state machine. -/
def Step (r r' : Room) : Prop :=
  ∃ a : Act, WfAct a r ∧ (applyAct a r).1 = r'

/-- `startGame` has no check that the game is not already running; the
restricted relation below additionally demands it fire only while waiting. -/
def StartsFromWaiting (a : Act) (r : Room) : Prop :=
  match a with
  | .start _ _ _ => r.gameStatus = .waiting
  | _ => True

/-- A step in which `startGame` is only accepted while the room is waiting. -/
def StepW (r r' : Room) : Prop :=
  ∃ a : Act, WfAct a r ∧ StartsFromWaiting a r ∧ (applyAct a r).1 = r'

/-- Reachable room states, starting from a freshly created room. -/
inductive Reachable : Room → Prop
  | init (rn : String) (cid : PlayerId) (nm : String) (pc : Nat)
      (hpc : pc = 6 ∨ pc = 8) : Reachable (freshRoom rn cid nm pc)
  | step {r r' : Room} : Reachable r → Step r r' → Reachable r'

/-- Reachable room states when `startGame` is only ever invoked on a
waiting room (the single-start discipline the spec's lifecycle describes). -/
inductive ReachableW : Room → Prop
  | init (rn : String) (cid : PlayerId) (nm : String) (pc : Nat)
      (hpc : pc = 6 ∨ pc = 8) : ReachableW (freshRoom rn cid nm pc)
  | step {r r' : Room} : ReachableW r → StepW r r' → ReachableW r'

/-! ## Card-conservation invariant (spec §8 "Card conservation") -/

instance : DecidablePred WfCard := fun c => by unfold WfCard; infer_instance

/-- Multiset of all cards held in the given seats' hands. -/
def handsML (ps : List Seat) : Multiset Card :=
  (ps.map fun p => (p.hand : Multiset Card)).sum

/-- The six deck cards of one `(suit, setType)` group. -/
def setCardsM (s : Suit) (t : SetType) : Multiset Card :=
  ((fullDeck.filter fun c => decide (c.suit = s ∧ c.setType = t)) : Multiset Card)

/-- The cards a `capturedSets` entry stands for. -/
def capturedPool (r : Room) : Multiset Card :=
  (r.capturedSets.map fun e => setCardsM e.suit e.setType).sum

/-- Every card of the original deck is either in some hand or accounted for
by a captured `(suit, setType)` entry. -/
def pool (r : Room) : Multiset Card := handsML r.players + capturedPool r

def CardConservation (r : Room) : Prop := pool r = fullDeckM

/-- Master inductive invariant for conservation: before the deal all hands
are empty and nothing is captured; afterwards the pool is the full deck. -/
def InvM (r : Room) : Prop :=
  (r.playerCount = 6 ∨ r.playerCount = 8) ∧
  (r.gameStatus = .waiting → r.capturedSets = [] ∧ ∀ p ∈ r.players, p.hand = []) ∧
  (r.gameStatus ≠ .waiting → CardConservation r)

theorem fullDeck_nodup : fullDeck.Nodup := by decide

theorem fullDeck_wf : ∀ c ∈ fullDeck, WfCard c := by decide

/-! ### Generic list/multiset helper lemmas -/

theorem map_coe_hand (l : List Seat) :
    l.map (fun p => (p.hand : Multiset Card)) =
      (l.map fun p => p.hand).map (fun hd : List Card => (hd : Multiset Card)) := by
  rw [List.map_map]; rfl

theorem handsML_congr {ps qs : List Seat}
    (h : ps.map (·.hand) = qs.map (·.hand)) : handsML ps = handsML qs := by
  unfold handsML
  rw [map_coe_hand ps, map_coe_hand qs, h]

theorem handsML_perm {ps qs : List Seat} (h : ps.Perm qs) :
    handsML ps = handsML qs := by
  unfold handsML
  exact List.Perm.sum_eq (h.map _)

theorem map_hand_map_of_hand_eq (f : Seat → Seat)
    (hf : ∀ p : Seat, (f p).hand = p.hand) (ps : List Seat) :
    (ps.map f).map (·.hand) = ps.map (·.hand) := by
  induction ps with
  | nil => rfl
  | cons p ps ih => simp [hf, ih]

theorem handsML_map_of_hand_eq (f : Seat → Seat)
    (hf : ∀ p : Seat, (f p).hand = p.hand) (ps : List Seat) :
    handsML (ps.map f) = handsML ps :=
  handsML_congr (map_hand_map_of_hand_eq f hf ps)

theorem map_hand_rebindFirst (nm : String) (cid : PlayerId) (ps : List Seat) :
    (rebindFirst nm cid ps).map (·.hand) = ps.map (·.hand) := by
  induction ps with
  | nil => rfl
  | cons p ps ih =>
      unfold rebindFirst
      by_cases h : p.name = nm <;> simp [h, ih]

theorem map_hand_shuffleTeamsAssign (sz : Nat) (i : Nat) (ps : List Seat) :
    (shuffleTeamsAssign sz i ps).map (·.hand) = ps.map (·.hand) := by
  induction ps generalizing i with
  | nil => rfl
  | cons p ps ih => unfold shuffleTeamsAssign; simp [ih]

theorem handsML_set_add {ps : List Seat} {i : Nat} {p : Seat} (q : Seat)
    (h : ps.get? i = some p) :
    handsML (ps.set i q) + (p.hand : Multiset Card) =
      handsML ps + (q.hand : Multiset Card) := by
  induction ps generalizing i with
  | nil => simp at h
  | cons a as ih =>
      cases i with
      | zero =>
          simp only [List.get?] at h
          cases h
          simp only [List.set, handsML, List.map_cons, List.sum_cons]
          abel
      | succ n =>
          simp only [List.get?] at h
          have ihh := ih (i := n) h
          simp only [List.set, handsML, List.map_cons, List.sum_cons] at ihh ⊢
          rw [add_assoc, add_assoc, ihh]

theorem dealTo_length (cpp : Nat) (deck : List Card) (ps : List Seat) :
    (dealTo cpp deck ps).length = ps.length := by
  induction ps generalizing deck with
  | nil => rfl
  | cons p ps ih => simp [dealTo, ih]

/-- Dealing in contiguous blocks puts exactly the first
`cpp * players.length` cards of the deck into the hands. -/
theorem handsML_dealTo (cpp : Nat) (deck : List Card) (ps : List Seat) :
    handsML (dealTo cpp deck ps) =
      ((deck.take (cpp * ps.length) : List Card) : Multiset Card) := by
  induction ps generalizing deck with
  | nil => simp [dealTo, handsML]
  | cons p ps ih =>
      have hstep : handsML (dealTo cpp deck (p :: ps)) =
          ((deck.take cpp : List Card) : Multiset Card) +
            handsML (dealTo cpp (deck.drop cpp) ps) := by
        simp [dealTo, handsML]
      rw [hstep, ih]
      have harith : cpp * (p :: ps).length = cpp + cpp * ps.length := by
        simp [List.length_cons]; ring
      rw [harith, List.take_add, ← Multiset.coe_add]

/-- The card found by `find?` plus the spliced hand reassemble the hand. -/
theorem coe_eraseP_add_of_find? {l : List Card} {pred : Card → Bool} {c : Card}
    (h : l.find? pred = some c) :
    ((l.eraseP pred : List Card) : Multiset Card) + {c} = (l : Multiset Card) := by
  induction l with
  | nil => simp at h
  | cons a as ih =>
      by_cases hp : pred a
      · rw [List.find?_cons_of_pos _ hp] at h
        injection h with h
        subst h
        rw [List.eraseP_cons_of_pos hp, ← Multiset.cons_coe]
        rw [add_comm, Multiset.singleton_add]
      · rw [List.find?_cons_of_neg _ hp] at h
        rw [List.eraseP_cons_of_neg hp, ← Multiset.cons_coe, ← Multiset.cons_coe,
          Multiset.cons_add, ih h]

theorem filter_listSum (p : Card → Prop) [DecidablePred p]
    (l : List (Multiset Card)) :
    Multiset.filter p l.sum = (l.map (Multiset.filter p)).sum := by
  induction l with
  | nil => simp
  | cons a as ih => simp [Multiset.filter_add, ih]

/-- Membership in the sum of hands gives membership in some hand. -/
theorem mem_handsML {c : Card} {ps : List Seat} (h : c ∈ handsML ps) :
    ∃ p ∈ ps, c ∈ p.hand := by
  unfold handsML at h
  induction ps with
  | nil => simp at h
  | cons a as ih =>
      simp only [List.map_cons, List.sum_cons, Multiset.mem_add] at h
      rcases h with h | h
      · exact ⟨a, List.mem_cons_self a as, Multiset.mem_coe.mp h⟩
      · rcases ih h with ⟨p, hp, hc⟩
        exact ⟨p, List.mem_cons_of_mem a hp, hc⟩

theorem mem_handsML_of_mem {c : Card} {p : Seat} {ps : List Seat}
    (hp : p ∈ ps) (hc : c ∈ p.hand) : c ∈ handsML ps := by
  unfold handsML
  induction ps with
  | nil => simp at hp
  | cons a as ih =>
      simp only [List.map_cons, List.sum_cons, Multiset.mem_add]
      rcases List.mem_cons.mp hp with h | h
      · subst h; exact Or.inl (Multiset.mem_coe.mpr hc)
      · exact Or.inr (ih h)

/-- A multiset in a list is `≤` the list's sum. -/
theorem le_listSum_of_mem {m : Multiset Card} {l : List (Multiset Card)}
    (h : m ∈ l) : m ≤ l.sum := by
  induction l with
  | nil => simp at h
  | cons a as ih =>
      rcases List.mem_cons.mp h with h | h
      · subst h; simp
      · calc m ≤ as.sum := ih h
          _ ≤ a + as.sum := le_add_self
          _ = (a :: as).sum := by simp

/-- The predicate `declareSet` strips by (suit, required rank, setType). -/
def stripPred (d : Declaration) (c : Card) : Prop :=
  c.suit = d.suit ∧ c.rank ∈ requiredRanks d.setType ∧ c.setType = d.setType

instance instDecStripPred (d : Declaration) : DecidablePred (stripPred d) :=
  fun c => by unfold stripPred; infer_instance

theorem filter_stripPred_fullDeck (d : Declaration) :
    Multiset.filter (stripPred d) fullDeckM = setCardsM d.suit d.setType := by
  have hcongr : Multiset.filter (stripPred d) fullDeckM =
      Multiset.filter (fun c => c.suit = d.suit ∧ c.setType = d.setType) fullDeckM := by
    apply Multiset.filter_congr
    intro c hc
    have hwf := fullDeck_wf c (Multiset.mem_coe.mp hc)
    unfold stripPred
    unfold WfCard at hwf
    constructor
    · rintro ⟨h1, _, h3⟩; exact ⟨h1, h3⟩
    · rintro ⟨h1, h3⟩
      refine ⟨h1, ?_, h3⟩
      rw [h3] at hwf
      exact hwf
  rw [hcongr]
  unfold fullDeckM setCardsM
  rw [Multiset.filter_coe]

theorem filter_stripPred_setCards (d : Declaration) (s : Suit) (t : SetType)
    (h : ¬(s = d.suit ∧ t = d.setType)) :
    Multiset.filter (stripPred d) (setCardsM s t) = 0 := by
  rw [Multiset.filter_eq_nil]
  intro c hc
  unfold setCardsM at hc
  rw [Multiset.mem_coe, List.mem_filter] at hc
  have hpair := of_decide_eq_true hc.2
  rintro ⟨h1, _, h3⟩
  exact h ⟨hpair.1.symm.trans h1, hpair.2.symm.trans h3⟩

/-- If the pool is the full deck and some hand still holds a card of a
`(suit, setType)` group, that group cannot already be captured. -/
theorem pair_not_captured {r : Room} (hpool : pool r = fullDeckM)
    {c0 : Card} (hc0 : c0 ∈ handsML r.players)
    {e : CapturedSet} (he : e ∈ r.capturedSets)
    (hs : c0.suit = e.suit) (ht : c0.setType = e.setType) : False := by
  have hle : handsML r.players ≤ pool r := by
    unfold pool; exact Multiset.le_add_right _ _
  have hc0full : c0 ∈ fullDeckM := by
    rw [← hpool]; exact Multiset.mem_of_le hle hc0
  have hsc : setCardsM e.suit e.setType ≤ capturedPool r :=
    le_listSum_of_mem (List.mem_map_of_mem _ he)
  have hc0sc : c0 ∈ setCardsM e.suit e.setType := by
    unfold setCardsM
    rw [Multiset.mem_coe, List.mem_filter]
    exact ⟨Multiset.mem_coe.mp hc0full, decide_eq_true ⟨hs, ht⟩⟩
  have h1 : 1 ≤ Multiset.count c0 (handsML r.players) :=
    Multiset.one_le_count_iff_mem.mpr hc0
  have h2 : 1 ≤ Multiset.count c0 (capturedPool r) :=
    le_trans (Multiset.one_le_count_iff_mem.mpr hc0sc)
      (Multiset.count_le_of_le _ hsc)
  have hcount : Multiset.count c0 (pool r) = Multiset.count c0 fullDeckM := by
    rw [hpool]
  have hnd : Multiset.count c0 fullDeckM ≤ 1 :=
    Multiset.nodup_iff_count_le_one.mp (Multiset.coe_nodup.mpr fullDeck_nodup) c0
  unfold pool at hcount
  rw [Multiset.count_add] at hcount
  omega

/-- With a full pool and a declared-set card still in some hand, the hands
hold exactly the six cards of the declared group. -/
theorem filter_strip_handsML {r : Room} {d : Declaration}
    (hpool : pool r = fullDeckM)
    {c0 : Card} (hc0 : c0 ∈ handsML r.players)
    (hs : c0.suit = d.suit) (ht : c0.setType = d.setType) :
    Multiset.filter (stripPred d) (handsML r.players) =
      setCardsM d.suit d.setType := by
  have hcap : Multiset.filter (stripPred d) (capturedPool r) = 0 := by
    unfold capturedPool
    rw [filter_listSum]
    apply List.sum_eq_zero
    intro m hm
    rw [List.mem_map] at hm
    rcases hm with ⟨msub, hmsub, rfl⟩
    rcases List.mem_map.mp hmsub with ⟨e, he, rfl⟩
    apply filter_stripPred_setCards
    rintro ⟨h1, h2⟩
    exact pair_not_captured hpool hc0 he (hs.trans h1.symm) (ht.trans h2.symm)
  have hfull := congrArg (Multiset.filter (stripPred d)) hpool
  unfold pool at hfull
  rw [Multiset.filter_add, hcap, add_zero, filter_stripPred_fullDeck] at hfull
  exact hfull

/-- Stripping the declared set from every hand removes exactly the
`stripPred` part of the pooled hands. -/
theorem handsML_strip (d : Declaration) (ps : List Seat) :
    handsML (ps.map (stripSet d)) +
      Multiset.filter (stripPred d) (handsML ps) = handsML ps := by
  induction ps with
  | nil => simp [handsML]
  | cons p ps ih =>
      have hcons : ∀ q qs, handsML (q :: qs) = (q.hand : Multiset Card) + handsML qs := by
        intro q qs; simp [handsML]
      rw [List.map_cons, hcons, hcons, Multiset.filter_add]
      have hhand :
          ((stripSet d p).hand : Multiset Card) +
            Multiset.filter (stripPred d) (p.hand : Multiset Card) =
            (p.hand : Multiset Card) := by
        unfold stripSet
        have hfun : (fun c : Card => !decide (c.suit = d.suit ∧
            c.rank ∈ requiredRanks d.setType ∧ c.setType = d.setType)) =
            fun c => decide (¬ stripPred d c) := by
          funext c
          by_cases hc : stripPred d c
          · have hc' : c.suit = d.suit ∧ c.rank ∈ requiredRanks d.setType ∧
                c.setType = d.setType := hc
            simp [hc, hc']
          · have hc' : ¬(c.suit = d.suit ∧ c.rank ∈ requiredRanks d.setType ∧
                c.setType = d.setType) := hc
            simp [hc, hc']
        simp only [hfun]
        rw [← Multiset.filter_coe, add_comm, Multiset.filter_add_not]
      calc ((stripSet d p).hand : Multiset Card) + handsML (ps.map (stripSet d)) +
            (Multiset.filter (stripPred d) (p.hand : Multiset Card) +
              Multiset.filter (stripPred d) (handsML ps))
          = (((stripSet d p).hand : Multiset Card) +
              Multiset.filter (stripPred d) (p.hand : Multiset Card)) +
            (handsML (ps.map (stripSet d)) +
              Multiset.filter (stripPred d) (handsML ps)) := by abel
        _ = (p.hand : Multiset Card) + handsML ps := by rw [hhand, ih]

theorem handsML_append (ps qs : List Seat) :
    handsML (ps ++ qs) = handsML ps + handsML qs := by
  unfold handsML
  rw [List.map_append, List.sum_append]

theorem handsML_congr_perm {ps qs : List Seat}
    (h : (ps.map (·.hand)).Perm (qs.map (·.hand))) : handsML ps = handsML qs := by
  unfold handsML
  rw [map_coe_hand ps, map_coe_hand qs]
  exact List.Perm.sum_eq (h.map _)

theorem map_hand_set {ps : List Seat} {i : Nat} {p q : Seat}
    (h : ps.get? i = some p) (hq : q.hand = p.hand) :
    (ps.set i q).map (·.hand) = ps.map (·.hand) := by
  induction ps generalizing i with
  | nil => simp at h
  | cons a as ih =>
      cases i with
      | zero =>
          simp only [List.get?] at h
          cases h
          simp [List.set, hq]
      | succ n =>
          simp only [List.get?] at h
          simp [List.set, ih h]

theorem get?_findIdx_of_find? {l : List Seat} {pred : Seat → Bool} {p : Seat}
    (h : l.find? pred = some p) : l.get? (l.findIdx pred) = some p := by
  induction l with
  | nil => simp at h
  | cons a as ih =>
      by_cases hp : pred a
      · rw [List.find?_cons_of_pos _ hp] at h
        injection h with h
        subst h
        rw [List.findIdx_cons]
        simp [hp]
      · rw [List.find?_cons_of_neg _ hp] at h
        rw [List.findIdx_cons]
        simp only [hp, cond_false]
        simpa using ih h

/-- Room updates that permute hands, keep captured sets, status and player
count, preserve the master invariant. -/
theorem invM_congr {r r' : Room} (h : InvM r)
    (hpc : r'.playerCount = r.playerCount)
    (hst : r'.gameStatus = r.gameStatus)
    (hcs : r'.capturedSets = r.capturedSets)
    (hh : (r'.players.map (·.hand)).Perm (r.players.map (·.hand))) :
    InvM r' := by
  obtain ⟨h1, h2, h3⟩ := h
  refine ⟨by rw [hpc]; exact h1, ?_, ?_⟩
  · intro hw
    rw [hst] at hw
    obtain ⟨hcs0, hhe⟩ := h2 hw
    refine ⟨hcs.trans hcs0, ?_⟩
    intro p hp
    have hmem : p.hand ∈ r'.players.map (·.hand) := List.mem_map_of_mem _ hp
    have hmem2 : p.hand ∈ r.players.map (·.hand) := hh.mem_iff.mp hmem
    rcases List.mem_map.mp hmem2 with ⟨q, hq, heq⟩
    rw [← heq]
    exact hhe q hq
  · intro hw
    rw [hst] at hw
    have hcons := h3 hw
    unfold CardConservation pool at hcons ⊢
    rw [handsML_congr_perm hh]
    have hcp : capturedPool r' = capturedPool r := by
      unfold capturedPool; rw [hcs]
    rw [hcp]
    exact hcons

theorem hand_flag (cond : Bool) (p : Seat) :
    (if cond then { p with canClaimTurn := true } else p).hand = p.hand := by
  split <;> rfl

theorem fullDeck_length : fullDeck.length = 48 := by decide

/-! ### `InvM` preservation, one lemma per handler -/

theorem invM_joinRoom (r : Room) (cid : PlayerId) (nm : String) (h : InvM r) :
    InvM (joinRoom r cid nm).1 := by
  unfold joinRoom
  by_cases hfull : r.playerCount ≤ r.players.length
  · rw [if_pos hfull]
    exact h
  · rw [if_neg hfull]
    cases hfind : r.players.find? (fun p => decide (p.name = nm)) with
    | some p =>
        dsimp only
        by_cases hconn : p.connected = true
        · rw [if_pos hconn]
          exact h
        · rw [if_neg hconn]
          refine invM_congr h rfl rfl rfl ?_
          rw [map_hand_rebindFirst]
    | none =>
        dsimp only
        obtain ⟨h1, h2, h3⟩ := h
        refine ⟨h1, ?_, ?_⟩
        · intro hw
          obtain ⟨hcs, hh⟩ := h2 hw
          refine ⟨hcs, ?_⟩
          intro q hq
          rcases List.mem_append.mp hq with hq | hq
          · exact hh q hq
          · rw [List.mem_singleton.mp hq]
            rfl
        · intro hw
          have hcons := h3 hw
          unfold CardConservation pool at hcons ⊢
          rw [handsML_append]
          have hnew : handsML [newSeat cid nm] = 0 := by
            simp [handsML, newSeat]
          rw [hnew, add_zero]
          exact hcons

theorem invM_createRoomExisting (r : Room) (cid : PlayerId) (nm : String)
    (h : InvM r) : InvM (createRoomExisting r cid nm).1 := by
  unfold createRoomExisting
  cases hfind : r.players.find? (fun p => decide (p.name = nm)) with
  | some p =>
      dsimp only
      by_cases hconn : p.connected = true
      · rw [if_pos hconn]
        exact h
      · rw [if_neg hconn]
        refine invM_congr h rfl rfl rfl ?_
        rw [map_hand_rebindFirst]
  | none => exact h

theorem invM_joinTeam (r : Room) (cid : PlayerId) (t : Team) (h : InvM r) :
    InvM (joinTeam r cid t).1 := by
  unfold joinTeam
  cases hidx : r.players.findIdx? (fun p => decide (p.id = cid)) with
  | none => exact h
  | some i =>
      dsimp only
      by_cases hfullt : (if r.playerCount = 6 then 3 else 4) ≤
          (r.players.filter fun p => decide (p.team = t)).length
      · rw [if_pos hfullt]
        exact h
      · rw [if_neg hfullt]
        cases hget : r.players.get? i with
        | none => exact h
        | some p =>
            dsimp only
            refine invM_congr h rfl rfl rfl ?_
            dsimp only
            rw [map_hand_set (q := { p with team := t }) hget rfl]

theorem invM_shuffleTeams (r : Room) (cid : PlayerId) (shuffled : List Seat)
    (hperm : shuffled.Perm r.players) (h : InvM r) :
    InvM (shuffleTeams r cid shuffled).1 := by
  unfold shuffleTeams
  by_cases hadm : r.adminId ≠ cid
  · rw [if_pos hadm]
    exact h
  · rw [if_neg hadm]
    refine invM_congr h rfl rfl rfl ?_
    rw [map_hand_shuffleTeamsAssign]
    exact hperm.map _

theorem invM_claimTurn (r : Room) (cid : PlayerId) (h : InvM r) :
    InvM (claimTurn r cid).1 := by
  unfold claimTurn
  by_cases hst : r.gameStatus ≠ .playing
  · rw [if_pos hst]
    exact h
  · rw [if_neg hst]
    cases hfind : r.players.find? (fun p => decide (p.id = cid)) with
    | none => exact h
    | some cp =>
        dsimp only
        by_cases hconn : ¬ cp.connected = true
        · rw [if_pos hconn]
          exact h
        · rw [if_neg hconn]
          by_cases helig : ¬ cp.canClaimTurn = true
          · rw [if_pos helig]
            exact h
          · rw [if_neg helig]
            refine invM_congr h rfl rfl rfl ?_
            rw [map_hand_map_of_hand_eq clearClaim (fun p => rfl)]

theorem invM_handleDisconnect (r : Room) (cid : PlayerId) (h : InvM r) :
    InvM (handleDisconnect r cid) := by
  unfold handleDisconnect
  cases hidx : r.players.findIdx? (fun p => decide (p.id = cid)) with
  | none => exact h
  | some i =>
      cases hget : r.players.get? i with
      | none =>
          try simp only [hget]
          try dsimp only
          exact invM_congr h rfl rfl rfl (List.Perm.refl _)
      | some p =>
          try simp only [hget]
          try dsimp only
          refine invM_congr h rfl rfl rfl ?_
          try dsimp only
          rw [map_hand_set (q := { p with connected := false }) hget rfl]

theorem invM_startGame (r : Room) (cid : PlayerId) (deck : List Card) (idx : Nat)
    (hperm : deck.Perm fullDeck) (hw : r.gameStatus = .waiting) (h : InvM r) :
    InvM (startGame r cid deck idx).1 := by
  unfold startGame
  by_cases hadm : r.adminId ≠ cid
  · rw [if_pos hadm]
    exact h
  · rw [if_neg hadm]
    by_cases hlen : r.players.length ≠ r.playerCount
    · rw [if_pos hlen]
      exact h
    · rw [if_neg hlen]
      dsimp only
      by_cases hbal : (r.players.filter fun p => decide (p.team = .red)).length ≠
            (if r.playerCount = 6 then 3 else 4) ∨
          (r.players.filter fun p => decide (p.team = .blue)).length ≠
            (if r.playerCount = 6 then 3 else 4)
      · rw [if_pos hbal]
        exact h
      · rw [if_neg hbal]
        obtain ⟨h1, h2, h3⟩ := h
        obtain ⟨hcs, _⟩ := h2 hw
        have hlen' : r.players.length = r.playerCount := not_ne_iff.mp hlen
        refine ⟨h1, ?_, ?_⟩
        · intro hws
          exact absurd hws (fun hh => by cases hh)
        · intro _
          unfold CardConservation pool
          have hcap : (List.map (fun e => setCardsM e.suit e.setType)
              r.capturedSets).sum = 0 := by
            rw [hcs]
            rfl
          unfold capturedPool
          dsimp only
          rw [hcap, add_zero]
          have hdeal := handsML_dealTo (if r.playerCount = 6 then 8 else 6) deck
            r.players
          have hdlen : deck.length = 48 := hperm.length_eq.trans fullDeck_length
          have htake : (if r.playerCount = 6 then 8 else 6) * r.players.length = 48 := by
            rw [hlen']
            rcases h1 with h6 | h8
            · rw [h6]
              rfl
            · rw [h8]
              rfl
          rw [hdeal, htake, ← hdlen, List.take_length]
          exact Multiset.coe_eq_coe.mpr hperm

theorem isValidRequest_none_team {rp tp : Seat} {rc : CardSpec}
    (h : isValidRequest rp tp rc = none) : rp.team ≠ tp.team := by
  unfold isValidRequest at h
  by_cases h1 : rp.team = tp.team ∨ tp.team = .unassigned
  · rw [if_pos h1] at h
    cases h
  · intro hc
    exact h1 (Or.inl hc)

/-- A capture (append one `(suit,setType)` entry, strip those cards from all
hands) keeps the pool equal to the full deck, provided some hand still held
a card of the declared group. -/
theorem capture_pool (r : Room) (d : Declaration) (w : Team) (X : List Seat)
    (hX : X.map (·.hand) = r.players.map (·.hand))
    (hfs : Multiset.filter (stripPred d) (handsML r.players) =
      setCardsM d.suit d.setType)
    (hcons : CardConservation r) :
    handsML (X.map (stripSet d)) +
      ((List.map (fun e => setCardsM e.suit e.setType)
        (r.capturedSets ++ [CapturedSet.mk d.suit d.setType w])).sum) = fullDeckM := by
  have hXh : handsML X = handsML r.players := handsML_congr hX
  have hstrip := handsML_strip d X
  rw [hXh] at hstrip
  unfold CardConservation pool capturedPool at hcons
  rw [List.map_append, List.sum_append]
  have hone : (List.map (fun e => setCardsM e.suit e.setType)
      [CapturedSet.mk d.suit d.setType w]).sum = setCardsM d.suit d.setType := by
    simp
  rw [hone]
  calc handsML (X.map (stripSet d)) +
        ((List.map (fun e => setCardsM e.suit e.setType) r.capturedSets).sum +
          setCardsM d.suit d.setType)
      = (handsML (X.map (stripSet d)) + setCardsM d.suit d.setType) +
        (List.map (fun e => setCardsM e.suit e.setType) r.capturedSets).sum := by
        abel
    _ = (handsML (X.map (stripSet d)) +
          Multiset.filter (stripPred d) (handsML r.players)) +
        (List.map (fun e => setCardsM e.suit e.setType) r.capturedSets).sum := by
        rw [hfs]
    _ = handsML r.players +
        (List.map (fun e => setCardsM e.suit e.setType) r.capturedSets).sum := by
        rw [hstrip]
    _ = fullDeckM := hcons

/-- The shared tail of `declareSet`'s three capture branches: record the
captured set, run the win check, then strip the set from all hands. -/
def captureTail (r : Room) (d : Declaration) (ps2 : List Seat)
    (turn : Option PlayerId) (la : Option String) (w : Team) : Room :=
  let r2 : Room :=
    { r with players := ps2, currentTurnPlayerId := turn, lastAction := la,
             capturedSets := r.capturedSets ++ [CapturedSet.mk d.suit d.setType w] }
  let r3 := finishIfWon r2
  { r3 with players := r3.players.map (stripSet d) }

theorem invM_capture_step {r : Room} {d : Declaration} {ps2 : List Seat}
    (turn : Option PlayerId) (la : Option String) (w : Team)
    (hinv : InvM r) (hst : r.gameStatus = .playing)
    (hhands : ps2.map (·.hand) = r.players.map (·.hand))
    {c0 : Card} (hc0 : c0 ∈ handsML r.players) (hs : c0.suit = d.suit)
    (ht : c0.setType = d.setType) :
    InvM (captureTail r d ps2 turn la w) := by
  obtain ⟨h1, h2, h3⟩ := hinv
  have hcons : CardConservation r := h3 (by rw [hst]; decide)
  have hfs : Multiset.filter (stripPred d) (handsML r.players) =
      setCardsM d.suit d.setType := filter_strip_handsML hcons hc0 hs ht
  unfold captureTail finishIfWon
  dsimp only
  cases hwin : checkWinCondition
      (r.capturedSets ++ [CapturedSet.mk d.suit d.setType w]) with
  | some wv =>
      dsimp only
      refine ⟨h1, ?_, ?_⟩
      · intro hws
        have hx : GameStatus.finished = GameStatus.waiting := hws
        exact absurd hx (by decide)
      · intro _
        unfold CardConservation pool capturedPool
        dsimp only
        refine capture_pool r d w (ps2.map clearClaim) ?_ hfs hcons
        rw [map_hand_map_of_hand_eq clearClaim (fun p => rfl)]
        exact hhands
  | none =>
      dsimp only
      refine ⟨h1, ?_, ?_⟩
      · intro hws
        have hx : r.gameStatus = GameStatus.waiting := hws
        rw [hst] at hx
        exact absurd hx (by decide)
      · intro _
        unfold CardConservation pool capturedPool
        dsimp only
        exact capture_pool r d w ps2 hhands hfs hcons

theorem invM_declareSet (r : Room) (cid : PlayerId) (d : Declaration) (k : Nat)
    (h : InvM r) : InvM (declareSet r cid d k).1 := by
  unfold declareSet
  by_cases hst : r.gameStatus ≠ .playing
  · rw [if_pos hst]
    exact h
  · rw [if_neg hst]
    have hpst : r.gameStatus = .playing := not_ne_iff.mp hst
    have hclear : InvM ({ r with players := r.players.map clearClaim } : Room) :=
      invM_congr h rfl rfl rfl
        (by rw [map_hand_map_of_hand_eq clearClaim (fun p => rfl)])
    dsimp only
    cases hfind : (r.players.map clearClaim).find? (fun p => decide (p.id = cid)) with
    | none => exact hclear
    | some dp =>
        dsimp only
        by_cases hconn : ¬ dp.connected = true
        · rw [if_pos hconn]
          exact hclear
        · rw [if_neg hconn]
          by_cases hhas : ¬ (dp.hand.any fun c =>
              decide (c.suit = d.suit ∧ c.setType = d.setType)) = true
          · rw [if_pos hhas]
            exact hclear
          · rw [if_neg hhas]
            have hany := not_not.mp hhas
            rw [List.any_eq_true] at hany
            obtain ⟨c0, hc0mem, hc0p⟩ := hany
            have hc0pair := of_decide_eq_true hc0p
            have hdpmem : dp ∈ r.players.map clearClaim :=
              List.mem_of_find?_eq_some hfind
            obtain ⟨q, hq, hqe⟩ := List.mem_map.mp hdpmem
            have hdq : dp.hand = q.hand := by
              rw [← hqe]
              rfl
            have hc0h : c0 ∈ handsML r.players :=
              mem_handsML_of_mem hq (hdq ▸ hc0mem)
            by_cases hhset : teamHasCompleteSet (r.players.map clearClaim) dp.team
                d.suit d.setType = true
            · simp only [if_pos hhset]
              exact invM_capture_step _ _ _ h hpst
                (by rw [map_hand_map_of_hand_eq _ (fun p => hand_flag _ p),
                        map_hand_map_of_hand_eq clearClaim (fun p => rfl)])
                hc0h hc0pair.1 hc0pair.2
            · simp only [if_neg hhset]
              by_cases hcontrib : (r.players.map clearClaim).filter
                  (contribPred d (if dp.team = .red then Team.blue else Team.red)) ≠ []
              · simp only [if_pos hcontrib]
                exact invM_capture_step _ _ _ h hpst
                  (by rw [map_hand_map_of_hand_eq _ (fun p => hand_flag _ p),
                          map_hand_map_of_hand_eq clearClaim (fun p => rfl)])
                  hc0h hc0pair.1 hc0pair.2
              · simp only [if_neg hcontrib]
                by_cases hopp : (r.players.map clearClaim).filter
                    (oppPred (if dp.team = .red then Team.blue else Team.red)) ≠ []
                · simp only [if_pos hopp]
                  exact invM_capture_step _ _ _ h hpst
                    (by rw [map_hand_map_of_hand_eq _ (fun p => hand_flag _ p),
                            map_hand_map_of_hand_eq clearClaim (fun p => rfl)])
                    hc0h hc0pair.1 hc0pair.2
                · simp only [if_neg hopp]
                  exact hclear

/-- Moving one card between two distinct seats leaves the pooled hands
unchanged. -/
theorem handsML_transfer {ps : List Seat} {ri ti : Nat} {rp tp : Seat} {c : Card}
    {h2 : List Card}
    (hri : ps.get? ri = some rp) (hti : ps.get? ti = some tp) (hne : ri ≠ ti)
    (herase : (h2 : Multiset Card) + {c} = (tp.hand : Multiset Card)) :
    handsML ((ps.set ri { rp with hand := rp.hand ++ [c] }).set ti
      { tp with hand := h2 }) = handsML ps := by
  have hti' : (ps.set ri { rp with hand := rp.hand ++ [c] }).get? ti = some tp := by
    rw [List.get?_set_ne _ _ hne]
    exact hti
  have e1 := handsML_set_add { rp with hand := rp.hand ++ [c] } hri
  have e2 := handsML_set_add { tp with hand := h2 } hti'
  dsimp only at e1 e2
  rw [← Multiset.coe_add, Multiset.coe_singleton] at e1
  refine add_right_cancel
    (b := (tp.hand : Multiset Card) + (rp.hand : Multiset Card)) ?_
  calc handsML ((ps.set ri { rp with hand := rp.hand ++ [c] }).set ti
          { tp with hand := h2 }) +
        ((tp.hand : Multiset Card) + (rp.hand : Multiset Card))
      = (handsML ((ps.set ri { rp with hand := rp.hand ++ [c] }).set ti
            { tp with hand := h2 }) +
          (tp.hand : Multiset Card)) + (rp.hand : Multiset Card) := by abel
    _ = (handsML (ps.set ri { rp with hand := rp.hand ++ [c] }) +
          (h2 : Multiset Card)) + (rp.hand : Multiset Card) := by rw [e2]
    _ = (handsML (ps.set ri { rp with hand := rp.hand ++ [c] }) +
          (rp.hand : Multiset Card)) + (h2 : Multiset Card) := by abel
    _ = (handsML ps + ((rp.hand : Multiset Card) + {c})) + (h2 : Multiset Card) := by
        rw [e1]
    _ = (handsML ps + (rp.hand : Multiset Card)) +
          ((h2 : Multiset Card) + {c}) := by abel
    _ = (handsML ps + (rp.hand : Multiset Card)) + (tp.hand : Multiset Card) := by
        rw [herase]
    _ = handsML ps + ((tp.hand : Multiset Card) + (rp.hand : Multiset Card)) := by
        abel

theorem invM_requestCard (r : Room) (cid : PlayerId) (req : CardRequest)
    (h : InvM r) : InvM (requestCard r cid req).1 := by
  unfold requestCard
  by_cases hst : r.gameStatus ≠ .playing
  · rw [if_pos hst]
    exact h
  · rw [if_neg hst]
    have hpst : r.gameStatus = .playing := not_ne_iff.mp hst
    by_cases hturn : r.currentTurnPlayerId ≠ some cid
    · rw [if_pos hturn]
      exact h
    · rw [if_neg hturn]
      have hclear : InvM ({ r with players := r.players.map clearClaim } : Room) :=
        invM_congr h rfl rfl rfl
          (by rw [map_hand_map_of_hand_eq clearClaim (fun p => rfl)])
      dsimp only
      cases hfr : (r.players.map clearClaim).find? (fun p => decide (p.id = cid)) with
      | none =>
          cases hft : (r.players.map clearClaim).find?
              (fun p => decide (p.id = req.targetPlayerId)) with
          | none => exact hclear
          | some tp => exact hclear
      | some rp =>
          cases hft : (r.players.map clearClaim).find?
              (fun p => decide (p.id = req.targetPlayerId)) with
          | none => exact hclear
          | some tp =>
              dsimp only
              cases hvalid : isValidRequest rp tp req.requestedCard with
              | some reason => exact hclear
              | none =>
                  dsimp only
                  unfold transferCard
                  dsimp only
                  cases hfc : tp.hand.find? (fun c =>
                      decide (c.suit = req.requestedCard.suit ∧
                        c.rank = req.requestedCard.rank ∧
                        c.setType = req.requestedCard.setType)) with
                  | none =>
                      exact invM_congr hclear rfl rfl rfl (List.Perm.refl _)
                  | some c =>
                      have hrid := List.find?_some hfr
                      simp only [decide_eq_true_eq] at hrid
                      have htid := List.find?_some hft
                      simp only [decide_eq_true_eq] at htid
                      have hcidne : cid ≠ req.targetPlayerId := by
                        intro hceq
                        rw [← hceq] at hft
                        rw [hfr] at hft
                        injection hft with hft
                        exact isValidRequest_none_team (hft ▸ hvalid) rfl
                      have hgr := get?_findIdx_of_find? hfr
                      have hgt := get?_findIdx_of_find? hft
                      have hneidx : (r.players.map clearClaim).findIdx
                            (fun p => decide (p.id = cid)) ≠
                          (r.players.map clearClaim).findIdx
                            (fun p => decide (p.id = req.targetPlayerId)) := by
                        intro heq
                        rw [heq, hgt] at hgr
                        injection hgr with hgr
                        refine hcidne ?_
                        rw [← hrid, ← hgr]
                        exact htid
                      have hkey := handsML_transfer hgr hgt hneidx
                        (coe_eraseP_add_of_find? hfc)
                      show InvM
                        { r with
                            players := ((r.players.map clearClaim).set
                              ((r.players.map clearClaim).findIdx
                                fun p => decide (p.id = cid))
                              { rp with hand := rp.hand ++ [c] }).set
                              ((r.players.map clearClaim).findIdx
                                fun p => decide (p.id = req.targetPlayerId))
                              { tp with hand := tp.hand.eraseP fun c =>
                                  decide (c.suit = req.requestedCard.suit ∧
                                    c.rank = req.requestedCard.rank ∧
                                    c.setType = req.requestedCard.setType) }
                            lastAction :=
                              some (rp.name ++ " received a card from " ++ tp.name) }
                      refine ⟨h.1, ?_, ?_⟩
                      · intro hws
                        have hx : r.gameStatus = GameStatus.waiting := hws
                        rw [hpst] at hx
                        exact absurd hx (by decide)
                      · intro _
                        have hcons := h.2.2 (by rw [hpst]; decide)
                        unfold CardConservation pool capturedPool at hcons ⊢
                        dsimp only
                        rw [hkey, handsML_map_of_hand_eq clearClaim (fun p => rfl)]
                        exact hcons

theorem invM_initial (rn : String) (cid : PlayerId) (nm : String) (pc : Nat)
    (hpc : pc = 6 ∨ pc = 8) : InvM (freshRoom rn cid nm pc) := by
  refine ⟨hpc, ?_, ?_⟩
  · intro _
    refine ⟨rfl, ?_⟩
    intro p hp
    rw [List.mem_singleton.mp hp]
    rfl
  · intro hw
    exact absurd rfl hw

theorem invM_stepW {r r' : Room} (h : InvM r) (hstep : StepW r r') : InvM r' := by
  obtain ⟨a, hwf, hstart, happ⟩ := hstep
  subst happ
  cases a with
  | join cid nm => exact invM_joinRoom r cid nm h
  | createExisting cid nm => exact invM_createRoomExisting r cid nm h
  | joinTeamAct cid t => exact invM_joinTeam r cid t h
  | shuffle cid shuffled => exact invM_shuffleTeams r cid shuffled hwf h
  | start cid deck idx => exact invM_startGame r cid deck idx hwf.1 hstart h
  | request cid req => exact invM_requestCard r cid req h
  | declare cid d k => exact invM_declareSet r cid d k h
  | claim cid => exact invM_claimTurn r cid h
  | disconnect cid => exact invM_handleDisconnect r cid h

/-- Master invariant along single-start executions. -/
theorem invM_reachableW {r : Room} (h : ReachableW r) : InvM r := by
  induction h with
  | init rn cid nm pc hpc => exact invM_initial rn cid nm pc hpc
  | step hr hst ih => exact invM_stepW ih hst

theorem setCardsM_ne_zero (s : Suit) (t : SetType) : setCardsM s t ≠ 0 := by
  cases s <;> cases t <;> decide

/-- If the captured groups all fit inside the (duplicate-free) full deck,
no `(suit, setType)` pair occurs twice among the entries. -/
theorem pairs_nodup_of_le (cs : List CapturedSet)
    (hle : ((cs.map fun e => setCardsM e.suit e.setType).sum) ≤ fullDeckM) :
    (cs.map fun e => (e.suit, e.setType)).Nodup := by
  induction cs with
  | nil => simp
  | cons e cs ih =>
      simp only [List.map_cons, List.nodup_cons]
      have hsum : setCardsM e.suit e.setType +
          ((cs.map fun e => setCardsM e.suit e.setType).sum) ≤ fullDeckM := by
        simpa using hle
      constructor
      · intro hmem
        rcases List.mem_map.mp hmem with ⟨e', he', hpair⟩
        have hps : e'.suit = e.suit := congrArg Prod.fst hpair
        have hpt : e'.setType = e.setType := congrArg Prod.snd hpair
        have hsc : setCardsM e'.suit e'.setType ≤
            ((cs.map fun e => setCardsM e.suit e.setType).sum) :=
          le_listSum_of_mem (List.mem_map_of_mem _ he')
        obtain ⟨c0, hc0⟩ :=
          Multiset.exists_mem_of_ne_zero (setCardsM_ne_zero e.suit e.setType)
        have h5 : 1 ≤ Multiset.count c0 (setCardsM e.suit e.setType) :=
          Multiset.one_le_count_iff_mem.mpr hc0
        have h6 : 1 ≤ Multiset.count c0
            ((cs.map fun e => setCardsM e.suit e.setType).sum) := by
          refine le_trans ?_ (Multiset.count_le_of_le _ hsc)
          rw [hps, hpt]
          exact h5
        have h7 := Multiset.count_le_of_le c0 hsum
        rw [Multiset.count_add] at h7
        have hnd : Multiset.count c0 fullDeckM ≤ 1 :=
          Multiset.nodup_iff_count_le_one.mp
            (Multiset.coe_nodup.mpr fullDeck_nodup) c0
        omega
      · refine ih (le_trans ?_ hsum)
        exact le_add_self

/-- From the master invariant: each `(suit, setType)` pair is captured at
most once. -/
theorem captured_pairs_nodup {r : Room} (hinv : InvM r) :
    (r.capturedSets.map fun e => (e.suit, e.setType)).Nodup := by
  by_cases hw : r.gameStatus = .waiting
  · rw [(hinv.2.1 hw).1]
    simp
  · have hcons := hinv.2.2 hw
    unfold CardConservation pool capturedPool at hcons
    refine pairs_nodup_of_le _ ?_
    rw [← hcons]
    exact le_add_self

/-! ## Single-turn-holder invariant (spec §8 "Single turn holder") -/

def IdsNodup (r : Room) : Prop := (r.players.map (·.id)).Nodup

/-- Number of seats whose connectionId equals `currentTurnPlayerId`. -/
def turnCount (r : Room) : Nat :=
  r.players.countP fun p => decide (some p.id = r.currentTurnPlayerId)

/-- Auxiliary invariant for the single-turn-holder property: seat ids are
pairwise distinct (socket ids are unique and `WfAct` keeps rebinds fresh)
and, during play, exactly one seat holds the turn. -/
def Inv2 (r : Room) : Prop :=
  IdsNodup r ∧ (r.gameStatus = .playing → turnCount r = 1)

theorem map_comp_eq_of_eq {α : Type} (g : Seat → α) (f : Seat → Seat)
    (hf : ∀ p, g (f p) = g p) (ps : List Seat) :
    (ps.map f).map g = ps.map g := by
  induction ps with
  | nil => rfl
  | cons p ps ih => simp [hf, ih]

theorem map_seat_set {α : Type} (g : Seat → α) {ps : List Seat} {i : Nat}
    {p : Seat} (q : Seat) (h : ps.get? i = some p) (hq : g q = g p) :
    (ps.set i q).map g = ps.map g := by
  induction ps generalizing i with
  | nil => simp at h
  | cons a as ih =>
      cases i with
      | zero =>
          simp only [List.get?] at h
          cases h
          simp [List.set, hq]
      | succ n =>
          simp only [List.get?] at h
          simp [List.set, ih h]

theorem countP_set_add {f : Seat → Bool} {ps : List Seat} {i : Nat} {p : Seat}
    (q : Seat) (h : ps.get? i = some p) :
    (ps.set i q).countP f + (if f p then 1 else 0) =
      ps.countP f + (if f q then 1 else 0) := by
  induction ps generalizing i with
  | nil => simp at h
  | cons a as ih =>
      cases i with
      | zero =>
          simp only [List.get?] at h
          cases h
          simp only [List.set, List.countP_cons]
          omega
      | succ n =>
          simp only [List.get?] at h
          have := ih (i := n) h
          simp only [List.set, List.countP_cons]
          omega

theorem countP_id_eq_one {ps : List Seat} {x : PlayerId}
    (hnd : (ps.map (·.id)).Nodup) (hx : x ∈ ps.map (·.id)) :
    ps.countP (fun p => decide (p.id = x)) = 1 := by
  induction ps with
  | nil => simp at hx
  | cons a as ih =>
      rw [List.map_cons, List.nodup_cons] at hnd
      rw [List.map_cons] at hx
      rw [List.countP_cons]
      by_cases hax : a.id = x
      · have h0 : as.countP (fun p => decide (p.id = x)) = 0 := by
          rw [List.countP_eq_zero]
          intro p hp
          simp only [decide_eq_true_eq]
          intro hpx
          exact hnd.1 (hax ▸ hpx ▸ List.mem_map_of_mem _ hp)
        simp [h0, hax]
      · have hxas : x ∈ as.map (·.id) := by
          rcases List.mem_cons.mp hx with h | h
          · exact absurd h.symm hax
          · exact h
        rw [ih hnd.2 hxas]
        simp [hax]

/-- Seat-count form of the single-holder count, for an arbitrary turn value. -/
theorem countP_some_id (ps : List Seat) (x : PlayerId) :
    (ps.countP fun p => decide (some p.id = some x)) =
      ps.countP fun p => decide (p.id = x) := by
  refine List.countP_congr ?_
  intro p _
  by_cases h : p.id = x <;> simp [h]

/-- `rebindFirst` either finds nothing or overwrites exactly the first seat
whose name matches. -/
theorem rebindFirst_cases (nm : String) (cid : PlayerId) (ps : List Seat) :
    rebindFirst nm cid ps = ps ∨
      ∃ i p, ps.get? i = some p ∧ p.name = nm ∧
        rebindFirst nm cid ps = ps.set i { p with id := cid, connected := true } ∧
        ps.find? (fun q => decide (q.name = nm)) = some p := by
  induction ps with
  | nil => exact Or.inl rfl
  | cons a as ih =>
      by_cases ha : a.name = nm
      · refine Or.inr ⟨0, a, rfl, ha, ?_, ?_⟩
        · unfold rebindFirst
          rw [if_pos ha]
          rfl
        · exact List.find?_cons_of_pos _ (decide_eq_true ha)
      · rcases ih with hsame | ⟨i, p, hget, hnm, heq, hfind⟩
        · refine Or.inl ?_
          unfold rebindFirst
          rw [if_neg ha, hsame]
        · refine Or.inr ⟨i + 1, p, hget, hnm, ?_, ?_⟩
          · unfold rebindFirst
            rw [if_neg ha, heq]
            rfl
          · rw [List.find?_cons_of_neg _ (by simpa using ha)]
            exact hfind

theorem countP_shuffleTeamsAssign (pred : Seat → Bool)
    (hpred : ∀ (p : Seat) (b : Team), pred { p with team := b } = pred p)
    (sz : Nat) : ∀ (i : Nat) (ps : List Seat),
    (shuffleTeamsAssign sz i ps).countP pred = ps.countP pred := by
  intro i ps
  induction ps generalizing i with
  | nil => rfl
  | cons p ps ih =>
      unfold shuffleTeamsAssign
      simp [List.countP_cons, hpred, ih]

theorem map_id_dealTo (cpp : Nat) (deck : List Card) (ps : List Seat) :
    (dealTo cpp deck ps).map (·.id) = ps.map (·.id) := by
  induction ps generalizing deck with
  | nil => rfl
  | cons p ps ih => simp [dealTo, ih]

theorem map_id_rebind_mem {nm : String} {cid y : PlayerId} {ps : List Seat}
    (h : y ∈ (rebindFirst nm cid ps).map (·.id)) :
    y = cid ∨ y ∈ ps.map (·.id) := by
  induction ps with
  | nil => simp [rebindFirst] at h
  | cons a as ih =>
      unfold rebindFirst at h
      by_cases ha : a.name = nm
      · rw [if_pos ha] at h
        rcases List.mem_cons.mp h with h | h
        · exact Or.inl h
        · exact Or.inr (List.mem_cons_of_mem _ h)
      · rw [if_neg ha] at h
        rcases List.mem_cons.mp h with h | h
        · exact Or.inr (h ▸ List.mem_cons_self _ _)
        · rcases ih h with h | h
          · exact Or.inl h
          · exact Or.inr (List.mem_cons_of_mem _ h)

theorem ids_nodup_rebindFirst {nm : String} {cid : PlayerId} {ps : List Seat}
    (hfresh : cid ∉ ps.map (·.id)) (hnd : (ps.map (·.id)).Nodup) :
    ((rebindFirst nm cid ps).map (·.id)).Nodup := by
  induction ps with
  | nil => simp [rebindFirst]
  | cons a as ih =>
      rw [List.map_cons, List.nodup_cons] at hnd
      rw [List.map_cons] at hfresh
      have hfa : cid ≠ a.id := fun hc => hfresh (hc ▸ List.mem_cons_self _ _)
      have hfas : cid ∉ as.map (·.id) := fun hc => hfresh (List.mem_cons_of_mem _ hc)
      unfold rebindFirst
      by_cases ha : a.name = nm
      · rw [if_pos ha]
        rw [List.map_cons, List.nodup_cons]
        exact ⟨by simpa using hfas, hnd.2⟩
      · rw [if_neg ha]
        rw [List.map_cons, List.nodup_cons]
        refine ⟨?_, ih hfas hnd.2⟩
        intro hmem
        rcases map_id_rebind_mem hmem with h | h
        · exact hfa h.symm
        · exact hnd.1 h

theorem getNextPlayerLoop_mem {players : List Seat} {ci : Nat} :
    ∀ {fuel j : Nat} {x : PlayerId},
      getNextPlayerLoop players ci fuel j = some x → x ∈ players.map (·.id)
  | 0, _, _, h => by exact Option.noConfusion h
  | fuel + 1, j, x, h => by
      unfold getNextPlayerLoop at h
      cases hget : players.get? j with
      | none =>
          rw [hget] at h
          exact Option.noConfusion h
      | some s =>
          rw [hget] at h
          dsimp only at h
          by_cases hc : s.connected = true
          · rw [if_pos hc] at h
            injection h with h
            exact h ▸ List.mem_map_of_mem _ (List.get?_mem hget)
          · rw [if_neg hc] at h
            by_cases hj : (j + 1) % players.length = ci
            · rw [if_pos hj] at h
              exact Option.noConfusion h
            · rw [if_neg hj] at h
              exact getNextPlayerLoop_mem h

theorem getNextPlayer_mem {pid : PlayerId} {players : List Seat}
    (hpid : pid ∈ players.map (·.id)) :
    getNextPlayer pid players ∈ players.map (·.id) := by
  unfold getNextPlayer
  cases hidx : players.findIdx? (fun p => decide (p.id = pid)) with
  | none =>
      dsimp only
      obtain ⟨p, hp, _⟩ := List.mem_map.mp hpid
      cases players with
      | nil => simp at hp
      | cons a as => exact List.mem_map_of_mem _ (List.mem_cons_self a as)
  | some ci =>
      dsimp only
      cases hloop : getNextPlayerLoop players ci (players.length + 1)
          ((ci + 1) % players.length) with
      | none => exact hpid
      | some x => exact getNextPlayerLoop_mem hloop

theorem getD_mem {l : List Seat} {k : Nat} (h : k < l.length) (d : Seat) :
    l.getD k d ∈ l := by
  induction l generalizing k with
  | nil => simp at h
  | cons a as ih =>
      cases k with
      | zero => exact List.mem_cons_self a as
      | succ n =>
          simp only [List.length_cons, Nat.succ_lt_succ_iff] at h
          exact List.mem_cons_of_mem a (ih h)

/-- Clearing all `canClaimTurn` flags preserves the turn invariant. -/
theorem inv2_clear {r : Room} (h : Inv2 r) :
    Inv2 ({ r with players := r.players.map clearClaim } : Room) := by
  obtain ⟨hnd, hturn⟩ := h
  constructor
  · unfold IdsNodup at *
    dsimp only
    rw [map_comp_eq_of_eq (fun p : Seat => p.id) clearClaim (fun p => rfl)]
    exact hnd
  · intro hplay
    unfold turnCount at *
    dsimp only
    rw [List.countP_map]
    exact hturn hplay

/-- Rebinding a seat that does not hold the turn preserves the invariant
(given the fresh connection id). -/
theorem inv2_rebind {r : Room} {cid : PlayerId} {nm : String} {p : Seat}
    (hfresh : cid ∉ r.players.map (·.id))
    (hfind : r.players.find? (fun q => decide (q.name = nm)) = some p)
    (hp : some p.id ≠ r.currentTurnPlayerId)
    (h : Inv2 r) :
    Inv2 ({ r with players := rebindFirst nm cid r.players } : Room) := by
  obtain ⟨hnd, hturn⟩ := h
  refine ⟨ids_nodup_rebindFirst hfresh hnd, ?_⟩
  intro hplay
  have hcount := hturn hplay
  unfold turnCount at hcount ⊢
  dsimp only
  rcases rebindFirst_cases nm cid r.players with hsame | ⟨i, p', hget, _, heq, hfind'⟩
  · rw [hsame]
    exact hcount
  · rw [hfind'] at hfind
    injection hfind with hfind
    subst hfind
    rw [heq]
    have hpredp : (decide (some p'.id = r.currentTurnPlayerId)) = false := by
      simpa using hp
    have hpredq : (decide
        (some ({ p' with id := cid, connected := true } : Seat).id =
          r.currentTurnPlayerId)) = false := by
      simp only [decide_eq_false_iff_not]
      intro hcontra
      have hpos : 0 < r.players.countP
          fun q => decide (some q.id = r.currentTurnPlayerId) := by omega
      obtain ⟨q, hq, hqp⟩ := List.countP_pos.mp hpos
      simp only [decide_eq_true_eq] at hqp
      have : q.id = cid := by
        have := hqp.trans hcontra.symm
        injection this
      exact hfresh (this ▸ List.mem_map_of_mem _ hq)
    have hadd := countP_set_add
      (f := fun q => decide (some q.id = r.currentTurnPlayerId))
      ({ p' with id := cid, connected := true }) hget
    dsimp only at hadd
    rw [hpredp, hpredq] at hadd
    simp only [Bool.false_eq_true, if_false] at hadd
    omega

theorem countP_set_eq {f : Seat → Bool} {ps : List Seat} {i : Nat} {p : Seat}
    (q : Seat) (h : ps.get? i = some p) (hpq : f q = f p) :
    (ps.set i q).countP f = ps.countP f := by
  have hadd := countP_set_add (f := f) q h
  rw [hpq] at hadd
  omega

theorem turn_ne_fresh {r : Room} {cid : PlayerId}
    (hfresh : cid ∉ r.players.map (·.id)) (hturn1 : turnCount r = 1) :
    ¬ some cid = r.currentTurnPlayerId := by
  intro hcontra
  have hpos : 0 < r.players.countP
      fun q => decide (some q.id = r.currentTurnPlayerId) := by
    unfold turnCount at hturn1
    omega
  obtain ⟨q, hq, hqp⟩ := List.countP_pos.mp hpos
  simp only [decide_eq_true_eq] at hqp
  have hqc : q.id = cid := by
    have h2 := hqp.trans hcontra.symm
    injection h2
  exact hfresh (hqc ▸ List.mem_map_of_mem _ hq)

theorem turnCount_eq_one_of_mem {ps : List Seat} {x : PlayerId}
    (hnd : (ps.map (·.id)).Nodup) (hx : x ∈ ps.map (·.id)) :
    ps.countP (fun p => decide (some p.id = some x)) = 1 := by
  rw [countP_some_id]
  exact countP_id_eq_one hnd hx

theorem map_seat_shuffleTeamsAssign {α : Type} (g : Seat → α)
    (hg : ∀ (p : Seat) (b : Team), g { p with team := b } = g p)
    (sz : Nat) : ∀ (i : Nat) (ps : List Seat),
    (shuffleTeamsAssign sz i ps).map g = ps.map g := by
  intro i ps
  induction ps generalizing i with
  | nil => rfl
  | cons p ps ih =>
      unfold shuffleTeamsAssign
      simp [hg, ih]

theorem inv2_joinRoom (r : Room) (cid : PlayerId) (nm : String)
    (hfresh : cid ∉ r.players.map (·.id))
    (hnr : ∀ p, r.players.find? (fun q => decide (q.name = nm)) = some p →
      some p.id ≠ r.currentTurnPlayerId)
    (h : Inv2 r) : Inv2 (joinRoom r cid nm).1 := by
  unfold joinRoom
  by_cases hfull : r.playerCount ≤ r.players.length
  · rw [if_pos hfull]
    exact h
  · rw [if_neg hfull]
    cases hfind : r.players.find? (fun p => decide (p.name = nm)) with
    | some p =>
        dsimp only
        by_cases hconn : p.connected = true
        · rw [if_pos hconn]
          exact h
        · rw [if_neg hconn]
          exact inv2_rebind hfresh hfind (hnr p hfind) h
    | none =>
        dsimp only
        obtain ⟨hnd, hturn⟩ := h
        constructor
        · unfold IdsNodup at *
          dsimp only
          have hm : (r.players ++ [newSeat cid nm]).map (·.id) =
              r.players.map (·.id) ++ [cid] := by
            rw [List.map_append]
            rfl
          rw [hm]
          exact ((List.perm_append_singleton _ _).nodup_iff).mpr
            (List.nodup_cons.mpr ⟨hfresh, hnd⟩)
        · intro hplay
          have hcount := hturn hplay
          unfold turnCount at hcount ⊢
          dsimp only
          rw [List.countP_append]
          have hzero : List.countP
              (fun p => decide (some p.id = r.currentTurnPlayerId))
              [newSeat cid nm] = 0 := by
            have hne : decide (some (newSeat cid nm).id =
                r.currentTurnPlayerId) = false := by
              simp only [decide_eq_false_iff_not]
              exact turn_ne_fresh hfresh hcount
            rw [List.countP_cons, List.countP_nil, hne]
            rfl
          omega

theorem inv2_createRoomExisting (r : Room) (cid : PlayerId) (nm : String)
    (hfresh : cid ∉ r.players.map (·.id))
    (hnr : ∀ p, r.players.find? (fun q => decide (q.name = nm)) = some p →
      some p.id ≠ r.currentTurnPlayerId)
    (h : Inv2 r) : Inv2 (createRoomExisting r cid nm).1 := by
  unfold createRoomExisting
  cases hfind : r.players.find? (fun p => decide (p.name = nm)) with
  | some p =>
      dsimp only
      by_cases hconn : p.connected = true
      · rw [if_pos hconn]
        exact h
      · rw [if_neg hconn]
        exact inv2_rebind hfresh hfind (hnr p hfind) h
  | none => exact h

theorem inv2_joinTeam (r : Room) (cid : PlayerId) (t : Team) (h : Inv2 r) :
    Inv2 (joinTeam r cid t).1 := by
  unfold joinTeam
  cases hidx : r.players.findIdx? (fun p => decide (p.id = cid)) with
  | none => exact h
  | some i =>
      dsimp only
      cases hget : r.players.get? i with
      | none =>
          by_cases htf : (if r.playerCount = 6 then 3 else 4) ≤
              (r.players.filter fun p => decide (p.team = t)).length
          · rw [if_pos htf]
            exact h
          · rw [if_neg htf]
            exact h
      | some p =>
          by_cases htf : (if r.playerCount = 6 then 3 else 4) ≤
              (r.players.filter fun p => decide (p.team = t)).length
          · rw [if_pos htf]
            exact h
          · rw [if_neg htf]
            obtain ⟨hnd, hturn⟩ := h
            constructor
            · unfold IdsNodup at *
              dsimp only
              rw [map_seat_set (fun q : Seat => q.id) ({ p with team := t }) hget rfl]
              exact hnd
            · intro hplay
              have hcount := hturn hplay
              unfold turnCount at hcount ⊢
              dsimp only
              rw [countP_set_eq
                (f := fun q : Seat => decide (some q.id = r.currentTurnPlayerId))
                ({ p with team := t }) hget rfl]
              exact hcount

theorem inv2_shuffleTeams (r : Room) (cid : PlayerId) (shuffled : List Seat)
    (hperm : shuffled.Perm r.players) (h : Inv2 r) :
    Inv2 (shuffleTeams r cid shuffled).1 := by
  unfold shuffleTeams
  by_cases hadm : r.adminId ≠ cid
  · rw [if_pos hadm]
    exact h
  · rw [if_neg hadm]
    obtain ⟨hnd, hturn⟩ := h
    constructor
    · unfold IdsNodup at *
      dsimp only
      rw [map_seat_shuffleTeamsAssign (fun q : Seat => q.id) (fun p b => rfl)]
      exact ((hperm.map (·.id)).nodup_iff).mpr hnd
    · intro hplay
      have hcount := hturn hplay
      unfold turnCount at hcount ⊢
      dsimp only
      rw [countP_shuffleTeamsAssign
        (fun q : Seat => decide (some q.id = r.currentTurnPlayerId))
        (fun p b => rfl)]
      rw [hperm.countP_eq]
      exact hcount

theorem inv2_startGame (r : Room) (cid : PlayerId) (deck : List Card) (idx : Nat)
    (hidx : idx < r.players.length) (h : Inv2 r) :
    Inv2 (startGame r cid deck idx).1 := by
  unfold startGame
  by_cases hadm : r.adminId ≠ cid
  · rw [if_pos hadm]
    exact h
  · rw [if_neg hadm]
    by_cases hlen : r.players.length ≠ r.playerCount
    · rw [if_pos hlen]
      exact h
    · rw [if_neg hlen]
      dsimp only
      by_cases hbal : (r.players.filter fun p => decide (p.team = .red)).length ≠
            (if r.playerCount = 6 then 3 else 4) ∨
          (r.players.filter fun p => decide (p.team = .blue)).length ≠
            (if r.playerCount = 6 then 3 else 4)
      · rw [if_pos hbal]
        exact h
      · rw [if_neg hbal]
        obtain ⟨hnd, _⟩ := h
        have hnd' : ((dealTo (if r.playerCount = 6 then 8 else 6) deck
            r.players).map (·.id)).Nodup := by
          rw [map_id_dealTo]
          exact hnd
        constructor
        · exact hnd'
        · intro _
          unfold turnCount
          dsimp only
          have hlen2 : idx < (dealTo (if r.playerCount = 6 then 8 else 6) deck
              r.players).length := by
            rw [dealTo_length]
            exact hidx
          exact turnCount_eq_one_of_mem hnd'
            (List.mem_map_of_mem _ (getD_mem hlen2 default))

theorem inv2_claimTurn (r : Room) (cid : PlayerId) (h : Inv2 r) :
    Inv2 (claimTurn r cid).1 := by
  unfold claimTurn
  by_cases hst : r.gameStatus ≠ .playing
  · rw [if_pos hst]
    exact h
  · rw [if_neg hst]
    cases hfind : r.players.find? (fun p => decide (p.id = cid)) with
    | none => exact h
    | some cp =>
        dsimp only
        by_cases hconn : ¬ cp.connected = true
        · rw [if_pos hconn]
          exact h
        · rw [if_neg hconn]
          by_cases helig : ¬ cp.canClaimTurn = true
          · rw [if_pos helig]
            exact h
          · rw [if_neg helig]
            obtain ⟨hnd, _⟩ := h
            constructor
            · unfold IdsNodup at *
              dsimp only
              rw [map_comp_eq_of_eq (fun p : Seat => p.id) clearClaim (fun p => rfl)]
              exact hnd
            · intro _
              unfold turnCount
              dsimp only
              rw [List.countP_map]
              exact turnCount_eq_one_of_mem hnd
                (List.mem_map_of_mem _ (List.mem_of_find?_eq_some hfind))

theorem inv2_mk {r r' : Room} (h : Inv2 r)
    (hps : r'.players.map (·.id) = r.players.map (·.id))
    (hsteq : r'.gameStatus = r.gameStatus)
    (hT : r.gameStatus = .playing →
      r'.players.countP (fun p => decide (some p.id = r'.currentTurnPlayerId)) = 1) :
    Inv2 r' := by
  obtain ⟨hnd, _⟩ := h
  refine ⟨?_, ?_⟩
  · unfold IdsNodup at *
    rw [hps]
    exact hnd
  · intro hplay
    exact hT (by rw [← hsteq]; exact hplay)

theorem inv2_handleDisconnect (r : Room) (cid : PlayerId) (h : Inv2 r) :
    Inv2 (handleDisconnect r cid) := by
  unfold handleDisconnect
  cases hidx : r.players.findIdx? (fun p => decide (p.id = cid)) with
  | none => exact h
  | some i =>
      cases hget : r.players.get? i with
      | none =>
          try simp only [hget]
          try dsimp only
          refine inv2_mk h rfl rfl ?_
          intro hplay
          have hcount := h.2 hplay
          unfold turnCount at hcount
          by_cases hcond : r.currentTurnPlayerId = some cid ∧
              r.gameStatus = .playing
          · rw [if_pos hcond]
            have hcid : cid ∈ r.players.map (·.id) := by
              have hpos : 0 < r.players.countP
                  fun q => decide (some q.id = r.currentTurnPlayerId) := by omega
              obtain ⟨q, hq, hqp⟩ := List.countP_pos.mp hpos
              simp only [decide_eq_true_eq] at hqp
              rw [hcond.1] at hqp
              injection hqp with hqp
              exact hqp ▸ List.mem_map_of_mem _ hq
            exact turnCount_eq_one_of_mem h.1 (getNextPlayer_mem hcid)
          · rw [if_neg hcond]
            exact hcount
      | some p =>
          try simp only [hget]
          try dsimp only
          refine inv2_mk h ?_ rfl ?_
          · exact map_seat_set (fun q : Seat => q.id)
              ({ p with connected := false }) hget rfl
          · intro hplay
            have hcount := h.2 hplay
            unfold turnCount at hcount
            have hids : (r.players.set i { p with connected := false }).map
                (·.id) = r.players.map (·.id) :=
              map_seat_set (fun q : Seat => q.id) ({ p with connected := false })
                hget rfl
            have hndset : ((r.players.set i
                { p with connected := false }).map (·.id)).Nodup := by
              rw [hids]
              exact h.1
            by_cases hcond : r.currentTurnPlayerId = some cid ∧
                r.gameStatus = .playing
            · rw [if_pos hcond]
              have hcid : cid ∈ (r.players.set i
                  { p with connected := false }).map (·.id) := by
                rw [hids]
                have hpos : 0 < r.players.countP
                    fun q => decide (some q.id = r.currentTurnPlayerId) := by omega
                obtain ⟨q, hq, hqp⟩ := List.countP_pos.mp hpos
                simp only [decide_eq_true_eq] at hqp
                rw [hcond.1] at hqp
                injection hqp with hqp
                exact hqp ▸ List.mem_map_of_mem _ hq
              exact turnCount_eq_one_of_mem hndset (getNextPlayer_mem hcid)
            · rw [if_neg hcond]
              rw [countP_set_eq
                (f := fun q => decide (some q.id = r.currentTurnPlayerId))
                ({ p with connected := false }) hget rfl]
              exact hcount

theorem inv2_requestCard (r : Room) (cid : PlayerId) (req : CardRequest)
    (h : Inv2 r) : Inv2 (requestCard r cid req).1 := by
  unfold requestCard
  by_cases hst : r.gameStatus ≠ .playing
  · rw [if_pos hst]
    exact h
  · rw [if_neg hst]
    by_cases hturn : r.currentTurnPlayerId ≠ some cid
    · rw [if_pos hturn]
      exact h
    · rw [if_neg hturn]
      have hclear : Inv2 ({ r with players := r.players.map clearClaim } : Room) :=
        inv2_clear h
      have hndps : ((r.players.map clearClaim).map (·.id)).Nodup := by
        rw [map_comp_eq_of_eq (fun p : Seat => p.id) clearClaim (fun p => rfl)]
        exact h.1
      dsimp only
      cases hfr : (r.players.map clearClaim).find? (fun p => decide (p.id = cid)) with
      | none =>
          cases hft : (r.players.map clearClaim).find?
              (fun p => decide (p.id = req.targetPlayerId)) with
          | none => exact hclear
          | some tp => exact hclear
      | some rp =>
          cases hft : (r.players.map clearClaim).find?
              (fun p => decide (p.id = req.targetPlayerId)) with
          | none => exact hclear
          | some tp =>
              dsimp only
              cases hvalid : isValidRequest rp tp req.requestedCard with
              | some reason => exact hclear
              | none =>
                  dsimp only
                  unfold transferCard
                  dsimp only
                  cases hfc : tp.hand.find? (fun c =>
                      decide (c.suit = req.requestedCard.suit ∧
                        c.rank = req.requestedCard.rank ∧
                        c.setType = req.requestedCard.setType)) with
                  | none =>
                      show Inv2
                        { r with
                            players := r.players.map clearClaim
                            currentTurnPlayerId := some req.targetPlayerId
                            lastAction :=
                              some (rp.name ++ " asked " ++ tp.name ++ " and missed") }
                      refine inv2_mk h ?_ rfl ?_
                      · exact map_comp_eq_of_eq (fun p : Seat => p.id)
                          clearClaim (fun p => rfl) r.players
                      · intro _
                        have htid := List.find?_some hft
                        simp only [decide_eq_true_eq] at htid
                        exact turnCount_eq_one_of_mem hndps
                          (htid ▸ List.mem_map_of_mem _
                            (List.mem_of_find?_eq_some hft))
                  | some c =>
                      have hrid := List.find?_some hfr
                      simp only [decide_eq_true_eq] at hrid
                      have htid := List.find?_some hft
                      simp only [decide_eq_true_eq] at htid
                      have hcidne : cid ≠ req.targetPlayerId := by
                        intro hceq
                        rw [← hceq] at hft
                        rw [hfr] at hft
                        injection hft with hft
                        exact isValidRequest_none_team (hft ▸ hvalid) rfl
                      have hgr := get?_findIdx_of_find? hfr
                      have hgt := get?_findIdx_of_find? hft
                      have hneidx : (r.players.map clearClaim).findIdx
                            (fun p => decide (p.id = cid)) ≠
                          (r.players.map clearClaim).findIdx
                            (fun p => decide (p.id = req.targetPlayerId)) := by
                        intro heq
                        rw [heq, hgt] at hgr
                        injection hgr with hgr
                        refine hcidne ?_
                        rw [← hrid, ← hgr]
                        exact htid
                      have hgt2 : ((r.players.map clearClaim).set
                          ((r.players.map clearClaim).findIdx
                            fun p => decide (p.id = cid))
                          { rp with hand := rp.hand ++ [c] }).get?
                          ((r.players.map clearClaim).findIdx
                            fun p => decide (p.id = req.targetPlayerId)) =
                          some tp := by
                        rw [List.get?_set_ne _ _ hneidx]
                        exact hgt
                      show Inv2
                        { r with
                            players := ((r.players.map clearClaim).set
                              ((r.players.map clearClaim).findIdx
                                fun p => decide (p.id = cid))
                              { rp with hand := rp.hand ++ [c] }).set
                              ((r.players.map clearClaim).findIdx
                                fun p => decide (p.id = req.targetPlayerId))
                              { tp with hand := tp.hand.eraseP (fun c =>
                                  decide (c.suit = req.requestedCard.suit ∧
                                    c.rank = req.requestedCard.rank ∧
                                    c.setType = req.requestedCard.setType)) }
                            lastAction :=
                              some (rp.name ++ " received a card from " ++ tp.name) }
                      refine inv2_mk h ?_ rfl ?_
                      · rw [map_seat_set (fun q : Seat => q.id)
                          ({ tp with hand := tp.hand.eraseP (fun c =>
                              decide (c.suit = req.requestedCard.suit ∧
                                c.rank = req.requestedCard.rank ∧
                                c.setType = req.requestedCard.setType)) }) hgt2 rfl]
                        rw [map_seat_set (fun q : Seat => q.id)
                          ({ rp with hand := rp.hand ++ [c] }) hgr rfl]
                        exact map_comp_eq_of_eq (fun p : Seat => p.id)
                          clearClaim (fun p => rfl) r.players
                      · intro hplay
                        have hcount := h.2 hplay
                        unfold turnCount at hcount
                        rw [countP_set_eq
                          (f := fun q =>
                            decide (some q.id = r.currentTurnPlayerId))
                          ({ tp with hand := tp.hand.eraseP (fun c =>
                              decide (c.suit = req.requestedCard.suit ∧
                                c.rank = req.requestedCard.rank ∧
                                c.setType = req.requestedCard.setType)) }) hgt2 rfl]
                        rw [countP_set_eq
                          (f := fun q =>
                            decide (some q.id = r.currentTurnPlayerId))
                          ({ rp with hand := rp.hand ++ [c] }) hgr rfl]
                        rw [List.countP_map]
                        exact hcount

theorem id_flag (cond : Bool) (p : Seat) :
    (if cond then { p with canClaimTurn := true } else p).id = p.id := by
  split <;> rfl

theorem inv2_capture {r : Room} {d : Declaration} {ps2 : List Seat}
    (turn : PlayerId) (la : Option String) (w : Team)
    (h : Inv2 r)
    (hids : ps2.map (·.id) = r.players.map (·.id))
    (hmem : turn ∈ r.players.map (·.id)) :
    Inv2 (captureTail r d ps2 (some turn) la w) := by
  unfold captureTail finishIfWon
  dsimp only
  cases hwin : checkWinCondition
      (r.capturedSets ++ [CapturedSet.mk d.suit d.setType w]) with
  | some wv =>
      dsimp only
      refine ⟨?_, ?_⟩
      · unfold IdsNodup
        dsimp only
        rw [map_comp_eq_of_eq (fun p : Seat => p.id) (stripSet d) (fun p => rfl)]
        rw [map_comp_eq_of_eq (fun p : Seat => p.id) clearClaim (fun p => rfl)]
        rw [hids]
        exact h.1
      · intro hws
        have hx : GameStatus.finished = GameStatus.playing := hws
        exact absurd hx (by decide)
  | none =>
      dsimp only
      refine ⟨?_, ?_⟩
      · unfold IdsNodup
        dsimp only
        rw [map_comp_eq_of_eq (fun p : Seat => p.id) (stripSet d) (fun p => rfl)]
        rw [hids]
        exact h.1
      · intro _
        unfold turnCount
        dsimp only
        rw [List.countP_map]
        have hnd2 : (ps2.map (·.id)).Nodup := by
          rw [hids]
          exact h.1
        have hmem2 : turn ∈ ps2.map (·.id) := by
          rw [hids]
          exact hmem
        exact turnCount_eq_one_of_mem hnd2 hmem2

theorem inv2_declareSet (r : Room) (cid : PlayerId) (d : Declaration) (k : Nat)
    (hwf : DeclareChoiceOk r cid d k) (h : Inv2 r) :
    Inv2 (declareSet r cid d k).1 := by
  unfold declareSet
  by_cases hst : r.gameStatus ≠ .playing
  · rw [if_pos hst]
    exact h
  · rw [if_neg hst]
    have hclear : Inv2 ({ r with players := r.players.map clearClaim } : Room) :=
      inv2_clear h
    have hidseq : (r.players.map clearClaim).map (·.id) = r.players.map (·.id) :=
      map_comp_eq_of_eq (fun p : Seat => p.id) clearClaim (fun p => rfl) r.players
    unfold DeclareChoiceOk at hwf
    dsimp only at hwf
    dsimp only
    cases hfind : (r.players.map clearClaim).find? (fun p => decide (p.id = cid)) with
    | none => exact hclear
    | some dp =>
        rw [hfind] at hwf
        dsimp only at hwf
        dsimp only
        by_cases hconn : ¬ dp.connected = true
        · rw [if_pos hconn]
          exact hclear
        · rw [if_neg hconn]
          by_cases hhas : ¬ (dp.hand.any fun c =>
              decide (c.suit = d.suit ∧ c.setType = d.setType)) = true
          · rw [if_pos hhas]
            exact hclear
          · rw [if_neg hhas]
            have hdpmem : dp.id ∈ r.players.map (·.id) := by
              rw [← hidseq]
              exact List.mem_map_of_mem _ (List.mem_of_find?_eq_some hfind)
            by_cases hhset : teamHasCompleteSet (r.players.map clearClaim) dp.team
                d.suit d.setType = true
            · simp only [if_pos hhset]
              refine inv2_capture dp.id _ _ h ?_ hdpmem
              rw [map_comp_eq_of_eq (fun p : Seat => p.id) _
                (fun p => id_flag _ p)]
              exact hidseq
            · simp only [if_neg hhset]
              simp only [if_neg hhset] at hwf
              by_cases hcontrib : (r.players.map clearClaim).filter
                  (contribPred d (if dp.team = .red then Team.blue else Team.red)) ≠ []
              · simp only [if_pos hcontrib]
                have hklt := hwf.1 hcontrib
                have hnext : ((r.players.map clearClaim).filter
                    (contribPred d (if dp.team = .red then Team.blue
                      else Team.red))).getD k dp ∈ r.players.map clearClaim :=
                  List.mem_of_mem_filter (getD_mem hklt dp)
                refine inv2_capture _ _ _ h ?_ ?_
                · rw [map_comp_eq_of_eq (fun p : Seat => p.id) _
                    (fun p => id_flag _ p)]
                  exact hidseq
                · rw [← hidseq]
                  exact List.mem_map_of_mem _ hnext
              · simp only [if_neg hcontrib]
                by_cases hopp : (r.players.map clearClaim).filter
                    (oppPred (if dp.team = .red then Team.blue else Team.red)) ≠ []
                · simp only [if_pos hopp]
                  have hklt := hwf.2 (not_not.mp hcontrib) hopp
                  have hnext : ((r.players.map clearClaim).filter
                      (oppPred (if dp.team = .red then Team.blue
                        else Team.red))).getD k dp ∈ r.players.map clearClaim :=
                    List.mem_of_mem_filter (getD_mem hklt dp)
                  refine inv2_capture _ _ _ h ?_ ?_
                  · rw [map_comp_eq_of_eq (fun p : Seat => p.id) _
                      (fun p => id_flag _ p)]
                    exact hidseq
                  · rw [← hidseq]
                    exact List.mem_map_of_mem _ hnext
                · simp only [if_neg hopp]
                  exact hclear

/-! ## Aggregated single-turn-holder preservation

`rebindTargetsTurn` detects the one situation in which the reconnection
paths of `joinRoom` / `createRoom` overwrite the `id` of the seat that is
currently referenced by `currentTurnPlayerId` (the handlers rebind the
seat's id to the new socket id but never update `currentTurnPlayerId`). -/

def rebindTargetsTurn (a : Act) (r : Room) : Bool :=
  match a with
  | .join _ nm =>
      match r.players.find? fun q => decide (q.name = nm) with
      | some p => decide (some p.id = r.currentTurnPlayerId)
      | none => false
  | .createExisting _ nm =>
      match r.players.find? fun q => decide (q.name = nm) with
      | some p => decide (some p.id = r.currentTurnPlayerId)
      | none => false
  | _ => false

theorem inv2_step (r : Room) (a : Act) (hwf : WfAct a r)
    (hnr : rebindTargetsTurn a r = false) (h : Inv2 r) :
    Inv2 (applyAct a r).1 := by
  cases a with
  | join cid nm =>
      refine inv2_joinRoom r cid nm hwf ?_ h
      intro p hp
      unfold rebindTargetsTurn at hnr
      dsimp only at hnr
      rw [hp] at hnr
      exact of_decide_eq_false hnr
  | createExisting cid nm =>
      refine inv2_createRoomExisting r cid nm hwf ?_ h
      intro p hp
      unfold rebindTargetsTurn at hnr
      dsimp only at hnr
      rw [hp] at hnr
      exact of_decide_eq_false hnr
  | joinTeamAct cid t => exact inv2_joinTeam r cid t h
  | shuffle cid shuffled => exact inv2_shuffleTeams r cid shuffled hwf h
  | start cid deck idx => exact inv2_startGame r cid deck idx hwf.2 h
  | request cid req => exact inv2_requestCard r cid req h
  | declare cid d k => exact inv2_declareSet r cid d k hwf h
  | claim cid => exact inv2_claimTurn r cid h
  | disconnect cid => exact inv2_handleDisconnect r cid h

/-! ## Concrete traces

A six-player game in room `R1`.  The deck permutation chosen by the
environment is the identity, so seat `s1` (Alice) is dealt the first eight
cards of `fullDeck`, which include the whole lower-spades set. -/

def rm0 : Room := freshRoom "R1" "s1" "Alice" 6
def rm1 : Room := (applyAct (.join "s2" "Bob") rm0).1
def rm2 : Room := (applyAct (.join "s3" "Carol") rm1).1
def rm3 : Room := (applyAct (.join "s4" "Dave") rm2).1
def rm4 : Room := (applyAct (.join "s5" "Eve") rm3).1
def rm5 : Room := (applyAct (.join "s6" "Fred") rm4).1
def rm6 : Room := (applyAct (.joinTeamAct "s1" .red) rm5).1
def rm7 : Room := (applyAct (.joinTeamAct "s2" .red) rm6).1
def rm8 : Room := (applyAct (.joinTeamAct "s3" .red) rm7).1
def rm9 : Room := (applyAct (.joinTeamAct "s4" .blue) rm8).1
def rm10 : Room := (applyAct (.joinTeamAct "s5" .blue) rm9).1
def rm11 : Room := (applyAct (.joinTeamAct "s6" .blue) rm10).1
def rmStart : Room := (applyAct (.start "s1" fullDeck 0) rm11).1
def dSL : Declaration := ⟨.spades, .lower⟩
def rmC1 : Room := (applyAct (.declare "s1" dSL 0) rmStart).1
def rmBad3 : Room := (applyAct (.start "s1" fullDeck 0) rmC1).1
def rmBad10 : Room := (applyAct (.declare "s1" dSL 0) rmBad3).1
def rmD1 : Room := (applyAct (.disconnect "s6") rmStart).1
def rmD2 : Room := (applyAct (.disconnect "s5") rmD1).1
def rmD3 : Room := (applyAct (.disconnect "s4") rmD2).1
def rmD4 : Room := (applyAct (.disconnect "s3") rmD3).1
def rmD5 : Room := (applyAct (.disconnect "s2") rmD4).1
def rmD6 : Room := (applyAct (.disconnect "s1") rmD5).1
def rmBad2 : Room := (applyAct (.createExisting "s99" "Alice") rmD6).1

/-- The cleared seat of Alice right after dealing with the identity
permutation: the first eight cards of the deck. -/
def dpAlice : Seat :=
  { id := "s1", name := "Alice", team := .red, hand := fullDeck.take 8,
    connected := true, canClaimTurn := false }

theorem find_dpAlice_rmStart :
    (rmStart.players.map clearClaim).find? (fun p => decide (p.id = "s1"))
      = some dpAlice := by decide

theorem wfDeclare1 : DeclareChoiceOk rmStart "s1" dSL 0 := by
  unfold DeclareChoiceOk
  dsimp only
  rw [find_dpAlice_rmStart]
  exact ⟨fun _ => by decide, fun _ _ => by decide⟩

theorem find_dpAlice_rmBad3 :
    (rmBad3.players.map clearClaim).find? (fun p => decide (p.id = "s1"))
      = some dpAlice := by decide

theorem wfDeclare2 : DeclareChoiceOk rmBad3 "s1" dSL 0 := by
  unfold DeclareChoiceOk
  dsimp only
  rw [find_dpAlice_rmBad3]
  exact ⟨fun _ => by decide, fun _ _ => by decide⟩


theorem wf_join {r : Room} {cid : PlayerId} {nm : String}
    (h : decide (cid ∈ r.players.map fun p => p.id) = false) :
    WfAct (.join cid nm) r := of_decide_eq_false h

theorem wf_createExisting {r : Room} {cid : PlayerId} {nm : String}
    (h : decide (cid ∈ r.players.map fun p => p.id) = false) :
    WfAct (.createExisting cid nm) r := of_decide_eq_false h

theorem wf_start {r : Room} {cid : PlayerId} {idx : Nat}
    (h : decide (idx < r.players.length) = true) :
    WfAct (.start cid fullDeck idx) r :=
  ⟨List.Perm.refl _, of_decide_eq_true h⟩

theorem reach_rmStart : Reachable rmStart := by
  have h0 : Reachable rm0 := Reachable.init "R1" "s1" "Alice" 6 (Or.inl rfl)
  have h1 : Reachable rm1 := h0.step ⟨.join "s2" "Bob", wf_join (by decide), rfl⟩
  have h2 : Reachable rm2 := h1.step ⟨.join "s3" "Carol", wf_join (by decide), rfl⟩
  have h3 : Reachable rm3 := h2.step ⟨.join "s4" "Dave", wf_join (by decide), rfl⟩
  have h4 : Reachable rm4 := h3.step ⟨.join "s5" "Eve", wf_join (by decide), rfl⟩
  have h5 : Reachable rm5 := h4.step ⟨.join "s6" "Fred", wf_join (by decide), rfl⟩
  have h6 : Reachable rm6 := h5.step ⟨.joinTeamAct "s1" .red, trivial, rfl⟩
  have h7 : Reachable rm7 := h6.step ⟨.joinTeamAct "s2" .red, trivial, rfl⟩
  have h8 : Reachable rm8 := h7.step ⟨.joinTeamAct "s3" .red, trivial, rfl⟩
  have h9 : Reachable rm9 := h8.step ⟨.joinTeamAct "s4" .blue, trivial, rfl⟩
  have h10 : Reachable rm10 := h9.step ⟨.joinTeamAct "s5" .blue, trivial, rfl⟩
  have h11 : Reachable rm11 := h10.step ⟨.joinTeamAct "s6" .blue, trivial, rfl⟩
  exact h11.step ⟨.start "s1" fullDeck 0, wf_start (by decide), rfl⟩

theorem reach_rmBad3 : Reachable rmBad3 := by
  have hc1 : Reachable rmC1 :=
    reach_rmStart.step ⟨.declare "s1" dSL 0, wfDeclare1, rfl⟩
  exact hc1.step ⟨.start "s1" fullDeck 0, wf_start (by decide), rfl⟩

theorem reach_rmBad10 : Reachable rmBad10 :=
  reach_rmBad3.step ⟨.declare "s1" dSL 0, wfDeclare2, rfl⟩

theorem reach_rmD6 : Reachable rmD6 := by
  have hd1 : Reachable rmD1 := reach_rmStart.step ⟨.disconnect "s6", trivial, rfl⟩
  have hd2 : Reachable rmD2 := hd1.step ⟨.disconnect "s5", trivial, rfl⟩
  have hd3 : Reachable rmD3 := hd2.step ⟨.disconnect "s4", trivial, rfl⟩
  have hd4 : Reachable rmD4 := hd3.step ⟨.disconnect "s3", trivial, rfl⟩
  have hd5 : Reachable rmD5 := hd4.step ⟨.disconnect "s2", trivial, rfl⟩
  exact hd5.step ⟨.disconnect "s1", trivial, rfl⟩

theorem reach_rmBad2 : Reachable rmBad2 :=
  reach_rmD6.step ⟨.createExisting "s99" "Alice", wf_createExisting (by decide), rfl⟩

/-! ## Further reachability helpers and concrete rooms for the claims -/

instance (r : Room) : Decidable (IdsNodup r) := by
  unfold IdsNodup; infer_instance

instance (r : Room) : Decidable (CardConservation r) := by
  unfold CardConservation; infer_instance

theorem sfw_start {r : Room} {cid : PlayerId} {deck : List Card} {idx : Nat}
    (h : decide (r.gameStatus = GameStatus.waiting) = true) :
    StartsFromWaiting (.start cid deck idx) r := by
  show r.gameStatus = GameStatus.waiting
  exact of_decide_eq_true h

theorem reachW_rmStart : ReachableW rmStart := by
  have h0 : ReachableW rm0 := ReachableW.init "R1" "s1" "Alice" 6 (Or.inl rfl)
  have h1 : ReachableW rm1 := h0.step ⟨.join "s2" "Bob", wf_join (by decide), trivial, rfl⟩
  have h2 : ReachableW rm2 := h1.step ⟨.join "s3" "Carol", wf_join (by decide), trivial, rfl⟩
  have h3 : ReachableW rm3 := h2.step ⟨.join "s4" "Dave", wf_join (by decide), trivial, rfl⟩
  have h4 : ReachableW rm4 := h3.step ⟨.join "s5" "Eve", wf_join (by decide), trivial, rfl⟩
  have h5 : ReachableW rm5 := h4.step ⟨.join "s6" "Fred", wf_join (by decide), trivial, rfl⟩
  have h6 : ReachableW rm6 := h5.step ⟨.joinTeamAct "s1" .red, trivial, trivial, rfl⟩
  have h7 : ReachableW rm7 := h6.step ⟨.joinTeamAct "s2" .red, trivial, trivial, rfl⟩
  have h8 : ReachableW rm8 := h7.step ⟨.joinTeamAct "s3" .red, trivial, trivial, rfl⟩
  have h9 : ReachableW rm9 := h8.step ⟨.joinTeamAct "s4" .blue, trivial, trivial, rfl⟩
  have h10 : ReachableW rm10 := h9.step ⟨.joinTeamAct "s5" .blue, trivial, trivial, rfl⟩
  have h11 : ReachableW rm11 := h10.step ⟨.joinTeamAct "s6" .blue, trivial, trivial, rfl⟩
  exact h11.step ⟨.start "s1" fullDeck 0, wf_start (by decide), sfw_start (by decide), rfl⟩

theorem reachW_rmC1 : ReachableW rmC1 :=
  reachW_rmStart.step ⟨.declare "s1" dSL 0, wfDeclare1, trivial, rfl⟩

theorem reach_rmC1 : Reachable rmC1 :=
  reach_rmStart.step ⟨.declare "s1" dSL 0, wfDeclare1, rfl⟩

theorem reach_rmD1 : Reachable rmD1 :=
  reach_rmStart.step ⟨.disconnect "s6", trivial, rfl⟩

/-! ## C1: reconnection takeover in `joinRoom` -/

/-- `rebindFirst` rewrites exactly the first name-matching seat, keeping its
position, hand and team, and updating only `id` and `connected`. -/
theorem rebindFirst_split (nm : String) (cid : PlayerId) :
    ∀ {l : List Seat} {p : Seat},
      l.find? (fun q => decide (q.name = nm)) = some p →
      ∃ l1 l2, l = l1 ++ p :: l2 ∧ (∀ q ∈ l1, q.name ≠ nm) ∧
        rebindFirst nm cid l = l1 ++ { p with id := cid, connected := true } :: l2 := by
  intro l
  induction l with
  | nil => intro p h; simp at h
  | cons a as ih =>
      intro p h
      by_cases ha : a.name = nm
      · rw [List.find?_cons_of_pos _ (by simpa using ha)] at h
        injection h with h
        subst h
        refine ⟨[], as, rfl, by simp, ?_⟩
        unfold rebindFirst
        rw [if_pos ha]
        rfl
      · rw [List.find?_cons_of_neg _ (by simpa using ha)] at h
        obtain ⟨l1, l2, he, hn, hr⟩ := ih h
        refine ⟨a :: l1, l2, by rw [he]; rfl, ?_, ?_⟩
        · intro q hq
          rcases List.mem_cons.mp hq with hq | hq
          · subst hq; exact ha
          · exact hn q hq
        · show rebindFirst nm cid (a :: as) = _
          unfold rebindFirst
          rw [if_neg ha, hr]
          rfl

/-- C1 (amended).  When the room is BELOW capacity and a seat with the
requested name exists and is disconnected, `joinRoom` rebinds that seat in
place — only its `id` and `connected` fields change, so hand and team are
preserved — and succeeds.  (The claimed at-capacity behaviour is refuted by
`C1_counterexample`: the capacity check runs before the reconnection
check, so a mid-game reconnection into a full room fails with RoomFull.) -/
theorem C1_claim (r : Room) (cid : PlayerId) (nm : String) (p : Seat)
    (hnf : ¬ r.playerCount ≤ r.players.length)
    (hfind : r.players.find? (fun q => decide (q.name = nm)) = some p)
    (hdis : p.connected = false) :
    ∃ l1 l2, r.players = l1 ++ p :: l2 ∧
      joinRoom r cid nm =
        ({ r with players := l1 ++ { p with id := cid, connected := true } :: l2 },
         .ok) := by
  obtain ⟨l1, l2, he, hn, hr⟩ := rebindFirst_split nm cid hfind
  refine ⟨l1, l2, he, ?_⟩
  unfold joinRoom
  rw [if_neg hnf, hfind]
  dsimp only
  rw [if_neg (by simp [hdis]), hr]

def seatAW : Seat :=
  { id := "a1", name := "Ann", team := .red, hand := [], connected := true }

def seatBW : Seat :=
  { id := "b1", name := "Bob", team := .blue, hand := fullDeck.take 2,
    connected := false }

def rwJ : Room :=
  { roomName := "W", players := [seatAW, seatBW], currentTurnPlayerId := none,
    capturedSets := [], gameStatus := .waiting, winner := none, adminId := "a1",
    lastAction := none, playerCount := 6 }

theorem C1_witness :
    ¬ rwJ.playerCount ≤ rwJ.players.length ∧
    rwJ.players.find? (fun q => decide (q.name = "Bob")) = some seatBW ∧
    seatBW.connected = false ∧
    (∃ l1 l2, rwJ.players = l1 ++ seatBW :: l2 ∧
      joinRoom rwJ "b2" "Bob" =
        ({ rwJ with
            players := l1 ++ { seatBW with id := "b2", connected := true } :: l2 },
         .ok)) :=
  ⟨by decide, by decide, rfl,
   C1_claim rwJ "b2" "Bob" seatBW (by decide) (by decide) rfl⟩

/-- C1 counterexample: in the reachable mid-game room `rmD1` (six seats,
capacity six, Fred disconnected) a reconnection under Fred's name fails
with RoomFull and rebinds nothing, because the capacity check precedes the
same-name reconnection check. -/
theorem C1_counterexample :
    Reachable rmD1 ∧
    (∃ p ∈ rmD1.players, p.name = "Fred" ∧ p.connected = false) ∧
    rmD1.playerCount ≤ rmD1.players.length ∧
    joinRoom rmD1 "s99" "Fred" = (rmD1, .err .roomFull) :=
  ⟨reach_rmD1, by decide, by decide, by decide⟩

/-! ## C2: single turn holder -/

/-- C2 (amended).  Socket-id uniqueness plus the single-turn-holder
property (`Inv2`) is preserved by every handler EXCEPT a reconnection
(`joinRoom` / `createRoom` takeover) that rebinds the very seat whose id is
`currentTurnPlayerId`; those rebinds change the seat's id without updating
`currentTurnPlayerId` and leave zero turn holders (`C2_counterexample`). -/
theorem C2_claim (r : Room) (a : Act) (hwf : WfAct a r)
    (hnr : rebindTargetsTurn a r = false) (hinv : Inv2 r) :
    Inv2 (applyAct a r).1 :=
  inv2_step r a hwf hnr hinv

theorem C2_witness :
    WfAct (.disconnect "s6") rmStart ∧
    rebindTargetsTurn (.disconnect "s6") rmStart = false ∧
    Inv2 rmStart ∧
    Inv2 (applyAct (.disconnect "s6") rmStart).1 :=
  ⟨trivial, by decide, ⟨by decide, fun _ => by decide⟩,
   C2_claim rmStart (.disconnect "s6") trivial (by decide)
     ⟨by decide, fun _ => by decide⟩⟩

/-- C2 counterexample: in the reachable room `rmBad2`, play is in progress
but NO seat's id equals `currentTurnPlayerId`: every player disconnected
and Alice (the turn holder) reconnected through `createRoom`, which rebound
her seat's id to the new socket id without touching `currentTurnPlayerId`. -/
theorem C2_counterexample :
    Reachable rmBad2 ∧ rmBad2.gameStatus = .playing ∧ turnCount rmBad2 = 0 :=
  ⟨reach_rmBad2, by decide, by decide⟩

/-! ## C3: card conservation -/

/-- C3 (amended).  In every state reachable WITHOUT restarting a game in
progress (`ReachableW`: `startGame` only fires on a waiting room), the
multiset of cards in all hands plus six cards per captured entry is exactly
the 48-card deck.  The unrestricted claim is refuted by
`C3_counterexample`: `startGame` has no gameStatus guard, and re-dealing
over a game with captured sets breaks conservation. -/
theorem C3_claim (r : Room) (h : ReachableW r) (hp : r.gameStatus = .playing) :
    CardConservation r :=
  (invM_reachableW h).2.2 (by rw [hp]; decide)

theorem C3_witness :
    ReachableW rmStart ∧ rmStart.gameStatus = .playing ∧
    CardConservation rmStart :=
  ⟨reachW_rmStart, rfl, C3_claim rmStart reachW_rmStart rfl⟩

/-- C3 counterexample: `rmBad3` is reachable (declare a set, then call
`startGame` again — nothing stops the admin from doing so mid-game), is in
`playing`, and its pool holds 54 card occurrences: the 48 re-dealt cards
plus the 6 cards of the captured lower-spades entry. -/
theorem C3_counterexample :
    Reachable rmBad3 ∧ rmBad3.gameStatus = .playing ∧
    ¬ CardConservation rmBad3 :=
  ⟨reach_rmBad3, by decide, by decide⟩

/-! ## C10: no set captured twice -/

/-- C10 (amended).  In every state reachable without restarting a game in
progress, `capturedSets` holds at most one entry per `(suit, setType)`
pair.  The unrestricted claim is refuted by `C10_counterexample`: after an
unguarded mid-game re-deal the same set can be declared and captured a
second time. -/
theorem C10_claim (r : Room) (h : ReachableW r) :
    (r.capturedSets.map fun e => (e.suit, e.setType)).Nodup :=
  captured_pairs_nodup (invM_reachableW h)

theorem C10_witness :
    ReachableW rmC1 ∧ rmC1.capturedSets ≠ [] ∧
    (rmC1.capturedSets.map fun e => (e.suit, e.setType)).Nodup :=
  ⟨reachW_rmC1, by decide, C10_claim rmC1 reachW_rmC1⟩

/-- C10 counterexample: in the reachable room `rmBad10` the lower-spades
set has been captured twice (declare, unguarded re-deal, declare again). -/
theorem C10_counterexample :
    Reachable rmBad10 ∧
    ¬ (rmBad10.capturedSets.map fun e => (e.suit, e.setType)).Nodup :=
  ⟨reach_rmBad10, by decide⟩

/-! ## C4: win decision -/

theorem captureTail_status (r : Room) (d : Declaration) (ps2 : List Seat)
    (turn : Option PlayerId) (la : Option String) (w : Team)
    (hst : r.gameStatus = .playing) :
    (captureTail r d ps2 turn la w).gameStatus = .playing ∨
    (captureTail r d ps2 turn la w).winner ≠ none := by
  unfold captureTail finishIfWon
  dsimp only
  cases hwin : checkWinCondition
      (r.capturedSets ++ [CapturedSet.mk d.suit d.setType w]) with
  | some wv =>
      dsimp only
      exact Or.inr fun hx => Option.noConfusion hx
  | none =>
      dsimp only
      exact Or.inl hst

/-- `declareSet` either leaves the game in `playing` or records a winner. -/
theorem declareSet_status (r : Room) (cid : PlayerId) (d : Declaration) (k : Nat)
    (hst : r.gameStatus = .playing) :
    (declareSet r cid d k).1.gameStatus = .playing ∨
    (declareSet r cid d k).1.winner ≠ none := by
  unfold declareSet
  rw [if_neg (not_not_intro hst)]
  dsimp only
  cases hfind : (r.players.map clearClaim).find? (fun p => decide (p.id = cid)) with
  | none => exact Or.inl hst
  | some dp =>
      dsimp only
      by_cases hconn : ¬ dp.connected = true
      · rw [if_pos hconn]
        exact Or.inl hst
      · rw [if_neg hconn]
        by_cases hhas : ¬ (dp.hand.any fun c =>
            decide (c.suit = d.suit ∧ c.setType = d.setType)) = true
        · rw [if_pos hhas]
          exact Or.inl hst
        · rw [if_neg hhas]
          by_cases hhset : teamHasCompleteSet (r.players.map clearClaim) dp.team
              d.suit d.setType = true
          · simp only [if_pos hhset]
            exact captureTail_status r d _ _ _ _ hst
          · simp only [if_neg hhset]
            by_cases hcontrib : (r.players.map clearClaim).filter
                (contribPred d (if dp.team = .red then Team.blue else Team.red)) ≠ []
            · simp only [if_pos hcontrib]
              exact captureTail_status r d _ _ _ _ hst
            · simp only [if_neg hcontrib]
              by_cases hopp : (r.players.map clearClaim).filter
                  (oppPred (if dp.team = .red then Team.blue else Team.red)) ≠ []
              · simp only [if_pos hopp]
                exact captureTail_status r d _ _ _ _ hst
              · simp only [if_neg hopp]
                exact Or.inl hst

/-- C4.  The win decision of `checkWinCondition` on any capturedSets list
with at most the 8 existing sets: a team with strictly more than 4 captures
wins outright; with all 8 captured and neither side past 4 the only
possibility is the exact 4-4 split, a draw; otherwise there is no winner
yet, and `declareSet` leaves `gameStatus = playing` whenever it does not
record a winner. -/
theorem C4_claim :
    (∀ cs : List CapturedSet, redCount cs + blueCount cs ≤ 8 →
      (4 < redCount cs → checkWinCondition cs = some .red) ∧
      (4 < blueCount cs → checkWinCondition cs = some .blue) ∧
      (redCount cs + blueCount cs = 8 → redCount cs ≤ 4 → blueCount cs ≤ 4 →
        redCount cs = 4 ∧ blueCount cs = 4 ∧ checkWinCondition cs = some .draw) ∧
      (redCount cs ≤ 4 → blueCount cs ≤ 4 → redCount cs + blueCount cs ≠ 8 →
        checkWinCondition cs = none)) ∧
    (∀ (r : Room) (cid : PlayerId) (d : Declaration) (k : Nat),
      r.gameStatus = .playing → (declareSet r cid d k).1.winner = none →
      (declareSet r cid d k).1.gameStatus = .playing) := by
  constructor
  · intro cs h8
    unfold checkWinCondition
    dsimp only
    refine ⟨?_, ?_, ?_, ?_⟩
    · intro hr
      rw [if_pos hr]
    · intro hb
      rw [if_neg (by omega), if_pos hb]
    · intro ht hr hb
      refine ⟨by omega, by omega, ?_⟩
      rw [if_neg (by omega), if_neg (by omega), if_pos ht,
          if_neg (by omega), if_neg (by omega)]
    · intro hr hb ht
      rw [if_neg (by omega), if_neg (by omega), if_neg ht]
  · intro r cid d k hst hw
    exact (declareSet_status r cid d k hst).resolve_right (not_not_intro hw)

def cs53 : List CapturedSet :=
  [⟨.spades, .lower, .red⟩, ⟨.spades, .upper, .red⟩, ⟨.hearts, .lower, .red⟩,
   ⟨.hearts, .upper, .red⟩, ⟨.diamonds, .lower, .red⟩,
   ⟨.diamonds, .upper, .blue⟩, ⟨.clubs, .lower, .blue⟩, ⟨.clubs, .upper, .blue⟩]

theorem C4_witness :
    redCount cs53 + blueCount cs53 ≤ 8 ∧ 4 < redCount cs53 ∧
    checkWinCondition cs53 = some .red ∧
    rmStart.gameStatus = .playing ∧
    (declareSet rmStart "nobody" dSL 0).1.winner = none ∧
    (declareSet rmStart "nobody" dSL 0).1.gameStatus = .playing :=
  ⟨by decide, by decide, (C4_claim.1 cs53 (by decide)).1 (by decide),
   rfl, by decide, C4_claim.2 rmStart "nobody" dSL 0 rfl (by decide)⟩

/-! ## C5: rejected declaration without a card of the set -/

/-- C5 (amended).  A `declareSet` by a found, connected declarer holding no
card of the declared `(suit, setType)` is rejected with
`mustHaveCardFromSet` and the room is returned with every seat's
`canClaimTurn` flag cleared — but otherwise unchanged: same hands, same
capturedSets, same turn.  (The claimed "no seat's canClaimTurn flag is
altered" is refuted by `C5_counterexample`: the handler clears all flags
BEFORE checking the precondition.) -/
theorem C5_claim (r : Room) (cid : PlayerId) (d : Declaration) (k : Nat)
    (dp : Seat)
    (hst : r.gameStatus = .playing)
    (hfind : (r.players.map clearClaim).find? (fun p => decide (p.id = cid))
      = some dp)
    (hconn : dp.connected = true)
    (hno : (dp.hand.any fun c =>
      decide (c.suit = d.suit ∧ c.setType = d.setType)) = false) :
    declareSet r cid d k =
      ({ r with players := r.players.map clearClaim },
       .err .mustHaveCardFromSet) := by
  unfold declareSet
  rw [if_neg (not_not_intro hst)]
  dsimp only
  rw [hfind]
  dsimp only
  rw [if_neg (not_not_intro hconn), if_pos (by rw [hno]; decide)]

def dpAliceC1 : Seat :=
  { id := "s1", name := "Alice", team := .red, hand := (fullDeck.drop 6).take 2,
    connected := true }

theorem C5_witness :
    rmC1.gameStatus = .playing ∧
    (rmC1.players.map clearClaim).find? (fun p => decide (p.id = "s1"))
      = some dpAliceC1 ∧
    dpAliceC1.connected = true ∧
    (dpAliceC1.hand.any fun c =>
      decide (c.suit = Suit.hearts ∧ c.setType = SetType.lower)) = false ∧
    declareSet rmC1 "s1" ⟨.hearts, .lower⟩ 0 =
      ({ rmC1 with players := rmC1.players.map clearClaim },
       .err .mustHaveCardFromSet) :=
  ⟨by decide, by decide, rfl, by decide,
   C5_claim rmC1 "s1" ⟨.hearts, .lower⟩ 0 dpAliceC1 (by decide) (by decide)
     rfl (by decide)⟩

/-- C5 counterexample: in the reachable room `rmC1` two seats carry
`canClaimTurn = true` (set after the first declaration); a declaration of a
set the declarer holds no card of is rejected with the right error, yet the
returned room differs from the input: the flags are gone. -/
theorem C5_counterexample :
    Reachable rmC1 ∧
    (declareSet rmC1 "s1" ⟨.hearts, .lower⟩ 0).2 = .err .mustHaveCardFromSet ∧
    (∃ p ∈ rmC1.players, p.canClaimTurn = true) ∧
    (∀ p ∈ (declareSet rmC1 "s1" ⟨.hearts, .lower⟩ 0).1.players,
      p.canClaimTurn = false) ∧
    (declareSet rmC1 "s1" ⟨.hearts, .lower⟩ 0).1 ≠ rmC1 :=
  ⟨reach_rmC1, by decide, by decide, by decide, by decide⟩

/-! ## C6: request validity -/

/-- C6.  `isValidRequest` accepts exactly when the two seats are on
different teams, the target is on a real team (not unassigned, as the spec
also requires), the target has cards, the requester does not already hold
the exact requested card, and the requester holds some card of the
requested `(suit, setType)`. -/
theorem C6_claim (rp tp : Seat) (rc : CardSpec) :
    isValidRequest rp tp rc = none ↔
      (rp.team ≠ tp.team ∧ tp.team ≠ .unassigned ∧ tp.hand ≠ [] ∧
       (rp.hand.any fun c =>
         decide (c.suit = rc.suit ∧ c.rank = rc.rank ∧
                 c.setType = rc.setType)) = false ∧
       (rp.hand.any fun c =>
         decide (c.suit = rc.suit ∧ c.setType = rc.setType)) = true) := by
  unfold isValidRequest
  by_cases h1 : rp.team = tp.team ∨ tp.team = .unassigned
  · rw [if_pos h1]
    constructor
    · intro hx
      exact absurd hx (by simp)
    · rintro ⟨ha, hb, -, -, -⟩
      rcases h1 with h1 | h1
      · exact absurd h1 ha
      · exact absurd h1 hb
  · rw [if_neg h1]
    push_neg at h1
    by_cases h2 : tp.hand.length = 0
    · rw [if_pos h2]
      constructor
      · intro hx
        exact absurd hx (by simp)
      · rintro ⟨-, -, hc, -, -⟩
        exact absurd (List.length_eq_zero.mp h2) hc
    · rw [if_neg h2]
      by_cases h3 : (rp.hand.any fun c =>
          decide (c.suit = rc.suit ∧ c.rank = rc.rank ∧
                  c.setType = rc.setType)) = true
      · rw [if_pos h3]
        constructor
        · intro hx
          exact absurd hx (by simp)
        · rintro ⟨-, -, -, hd, -⟩
          rw [h3] at hd
          exact Bool.noConfusion hd
      · rw [if_neg h3]
        by_cases h4 : ¬ (rp.hand.any fun c =>
            decide (c.suit = rc.suit ∧ c.setType = rc.setType)) = true
        · rw [if_pos h4]
          constructor
          · intro hx
            exact absurd hx (by simp)
          · rintro ⟨-, -, -, -, he⟩
            exact absurd he h4
        · rw [if_neg h4]
          constructor
          · intro _
            refine ⟨h1.1, h1.2, ?_, ?_, not_not.mp h4⟩
            · intro hnil
              exact h2 (by rw [hnil]; rfl)
            · exact Bool.eq_false_iff.mpr h3
          · intro _
            rfl

theorem C6_witness :
    isValidRequest seatAW seatBW ⟨.spades, .ace, .lower⟩ = none ↔
      (seatAW.team ≠ seatBW.team ∧ seatBW.team ≠ .unassigned ∧
       seatBW.hand ≠ [] ∧
       (seatAW.hand.any fun c =>
         decide (c.suit = Suit.spades ∧ c.rank = Rank.ace ∧
                 c.setType = SetType.lower)) = false ∧
       (seatAW.hand.any fun c =>
         decide (c.suit = Suit.spades ∧ c.setType = SetType.lower)) = true) :=
  C6_claim seatAW seatBW ⟨.spades, .ace, .lower⟩

/-! ## C8: createRoom on a taken name -/

/-- C8 (amended).  With a fresh room name, `createRoom` installs a room
with exactly one seat (the creator: unassigned team, empty hand) whose
connection is the admin.  With a TAKEN name the handler does not simply
fail: it first tries a reconnection takeover — if a seat with the creator's
player name exists and is disconnected it rebinds that seat in the EXISTING
room and succeeds; if that seat is connected it fails with NameTaken; only
when no seat carries the name does it fail with the room-exists error
(`C8_counterexample` exhibits the takeover path). -/
theorem C8_claim (g : Registry) (cid : PlayerId) (nm rn : String) (pc : Nat) :
    (regGet g rn = none →
      createRoom g cid nm rn pc = (regSet g rn (freshRoom rn cid nm pc), .ok)) ∧
    ((freshRoom rn cid nm pc).players
        = [{ id := cid, name := nm, team := .unassigned, hand := [],
             connected := true }] ∧
     (freshRoom rn cid nm pc).adminId = cid ∧
     (freshRoom rn cid nm pc).gameStatus = .waiting) ∧
    (∀ room, regGet g rn = some room →
      ((∀ p ∈ room.players, p.name ≠ nm) →
        createRoom g cid nm rn pc = (g, .err .roomExists)) ∧
      (∀ p, room.players.find? (fun q => decide (q.name = nm)) = some p →
        (p.connected = true →
          createRoom g cid nm rn pc = (g, .err .nameTaken)) ∧
        (p.connected = false →
          createRoom g cid nm rn pc =
            (regSet g rn { room with players := rebindFirst nm cid room.players },
             .ok)))) := by
  refine ⟨?_, ⟨rfl, rfl, rfl⟩, ?_⟩
  · intro hnone
    unfold createRoom
    rw [hnone]
  · intro room hsome
    constructor
    · intro hnames
      have hfind : room.players.find? (fun q => decide (q.name = nm)) = none := by
        rw [List.find?_eq_none]
        intro p hp
        simp only [decide_eq_true_eq]
        exact hnames p hp
      unfold createRoom
      rw [hsome]
      dsimp only
      unfold createRoomExisting
      rw [hfind]
    · intro p hfind
      constructor
      · intro hcp
        unfold createRoom
        rw [hsome]
        dsimp only
        unfold createRoomExisting
        rw [hfind]
        dsimp only
        rw [if_pos hcp]
      · intro hcp
        unfold createRoom
        rw [hsome]
        dsimp only
        unfold createRoomExisting
        rw [hfind]
        dsimp only
        rw [if_neg (by rw [hcp]; decide)]

def g1 : Registry := [("R", rmD1)]

/-- C8 counterexample: the registry maps "R" to the reachable mid-game room
`rmD1` in which Fred is disconnected.  `createRoom` under Fred's name does
not fail with a room-exists error: it rebinds Fred's seat and reports
success (and under the name of the connected Alice it reports NameTaken,
again not a room-exists error). -/
theorem C8_counterexample :
    regGet g1 "R" = some rmD1 ∧
    (createRoom g1 "s99" "Fred" "R" 6).2 = .ok ∧
    (createRoom g1 "s99" "Fred" "R" 6).1 ≠ g1 ∧
    (createRoom g1 "s98" "Alice" "R" 6).2 = .err .nameTaken :=
  ⟨by decide, by decide, by decide, by decide⟩

theorem C8_witness :
    regGet ([] : Registry) "NewR" = none ∧
    createRoom [] "c1" "Carol" "NewR" 6
      = (regSet [] "NewR" (freshRoom "NewR" "c1" "Carol" 6), .ok) ∧
    (freshRoom "NewR" "c1" "Carol" 6).players
      = [{ id := "c1", name := "Carol", team := .unassigned, hand := [],
           connected := true }] ∧
    (freshRoom "NewR" "c1" "Carol" 6).adminId = "c1" :=
  ⟨rfl, (C8_claim [] "c1" "Carol" "NewR" 6).1 rfl,
   (C8_claim [] "c1" "Carol" "NewR" 6).2.1.1,
   (C8_claim [] "c1" "Carol" "NewR" 6).2.1.2.1⟩

/-! ## C9: error surfacing -/

def reqX : CardRequest := ⟨"s2", ⟨.spades, .ace, .lower⟩⟩

/-- C9 (amended).  `requestCard` for a missing room or a room not in
`playing` is dropped SILENTLY (no error message), leaving the state
unchanged — refuting the claim that every validation failure is surfaced
as a structured error.  All failures that ARE surfaced as errors leave the
room unchanged except possibly for clearing every seat's `canClaimTurn`
flag. -/
theorem C9_claim :
    (∀ (g : Registry) (cid : PlayerId) (rn : String) (req : CardRequest),
      regGet g rn = none → requestCardReg g cid rn req = (g, .silent)) ∧
    (∀ (r : Room) (cid : PlayerId) (req : CardRequest),
      ((requestCard r cid req).2 = .silent ↔ ¬ r.gameStatus = .playing) ∧
      ((requestCard r cid req).2 = .silent → (requestCard r cid req).1 = r) ∧
      (∀ e, (requestCard r cid req).2 = .err e →
        (requestCard r cid req).1 = r ∨
        (requestCard r cid req).1
          = { r with players := r.players.map clearClaim })) := by
  constructor
  · intro g cid rn req hnone
    unfold requestCardReg
    rw [hnone]
  · intro r cid req
    unfold requestCard
    by_cases h1 : r.gameStatus ≠ .playing
    · rw [if_pos h1]
      exact ⟨⟨fun _ => h1, fun _ => rfl⟩, fun _ => rfl,
             fun e he => Outcome.noConfusion he⟩
    · rw [if_neg h1]
      by_cases h2 : r.currentTurnPlayerId ≠ some cid
      · rw [if_pos h2]
        exact ⟨⟨fun hx => Outcome.noConfusion hx,
                fun hx => absurd (not_not.mp h1) hx⟩,
               fun hx => Outcome.noConfusion hx, fun e _ => Or.inl rfl⟩
      · rw [if_neg h2]
        dsimp only
        cases hf1 : (r.players.map clearClaim).find?
            (fun p => decide (p.id = cid)) with
        | none =>
            try dsimp only
            cases hf2 : (r.players.map clearClaim).find?
                (fun p => decide (p.id = req.targetPlayerId)) with
            | none =>
                exact ⟨⟨fun hx => Outcome.noConfusion hx,
                        fun hx => absurd (not_not.mp h1) hx⟩,
                       fun hx => Outcome.noConfusion hx, fun e _ => Or.inr rfl⟩
            | some tp =>
                exact ⟨⟨fun hx => Outcome.noConfusion hx,
                        fun hx => absurd (not_not.mp h1) hx⟩,
                       fun hx => Outcome.noConfusion hx, fun e _ => Or.inr rfl⟩
        | some rp =>
            try dsimp only
            cases hf2 : (r.players.map clearClaim).find?
                (fun p => decide (p.id = req.targetPlayerId)) with
            | none =>
                exact ⟨⟨fun hx => Outcome.noConfusion hx,
                        fun hx => absurd (not_not.mp h1) hx⟩,
                       fun hx => Outcome.noConfusion hx, fun e _ => Or.inr rfl⟩
            | some tp =>
                try dsimp only
                cases hv : isValidRequest rp tp req.requestedCard with
                | some reason =>
                    exact ⟨⟨fun hx => Outcome.noConfusion hx,
                            fun hx => absurd (not_not.mp h1) hx⟩,
                           fun hx => Outcome.noConfusion hx,
                           fun e _ => Or.inr rfl⟩
                | none =>
                    try dsimp only
                    by_cases hs : (transferCard tp rp req.requestedCard.suit
                        req.requestedCard.rank req.requestedCard.setType).success
                        = true
                    · rw [if_pos hs]
                      exact ⟨⟨fun hx => Outcome.noConfusion hx,
                              fun hx => absurd (not_not.mp h1) hx⟩,
                             fun hx => Outcome.noConfusion hx,
                             fun e he => Outcome.noConfusion he⟩
                    · rw [if_neg hs]
                      exact ⟨⟨fun hx => Outcome.noConfusion hx,
                              fun hx => absurd (not_not.mp h1) hx⟩,
                             fun hx => Outcome.noConfusion hx,
                             fun e he => Outcome.noConfusion he⟩

theorem C9_witness :
    regGet ([] : Registry) "nowhere" = none ∧
    requestCardReg [] "s1" "nowhere" reqX = ([], .silent) ∧
    ((requestCard rm0 "s1" reqX).2 = .silent ↔ ¬ rm0.gameStatus = .playing) :=
  ⟨rfl, C9_claim.1 [] "s1" "nowhere" reqX rfl, (C9_claim.2 rm0 "s1" reqX).1⟩

/-- C9 counterexample: `rm0` is a freshly created (reachable) room still in
`waiting`; a `requestCard` sent to it fails its status validation yet
produces NO error at all — the handler returns silently, room unchanged. -/
theorem C9_counterexample :
    Reachable rm0 ∧ rm0.gameStatus ≠ .playing ∧
    requestCard rm0 "s1" reqX = (rm0, .silent) :=
  ⟨Reachable.init "R1" "s1" "Alice" 6 (Or.inl rfl), by decide, by decide⟩

/-! ## C7: incorrect-declaration handoff -/

theorem captureTail_eq (r : Room) (d : Declaration) (ps2 : List Seat)
    (turn : Option PlayerId) (la : Option String) (w : Team)
    (hnowin : checkWinCondition
      (r.capturedSets ++ [CapturedSet.mk d.suit d.setType w]) = none) :
    captureTail r d ps2 turn la w =
      { r with players := ps2.map (stripSet d), currentTurnPlayerId := turn,
               lastAction := la,
               capturedSets :=
                 r.capturedSets ++ [CapturedSet.mk d.suit d.setType w] } := by
  unfold captureTail finishIfWon
  dsimp only
  rw [hnowin]

/-- C7 (amended).  On an incorrect declaration with at least one qualifying
opposing member (connected, holding cards, holding a card of the declared
set), the new turn holder IS drawn from exactly the qualifying members, as
claimed.  But the `canClaimTurn` flags do NOT go to "precisely the other
qualifying members": the handler flags every opposing-team seat other than
the new holder that holds any card at all, with no connectedness and no
declared-set requirement (`C7_counterexample`). -/
theorem C7_claim (r : Room) (cid : PlayerId) (d : Declaration) (k : Nat)
    (dp : Seat) (w : Team)
    (hst : r.gameStatus = .playing)
    (hfind : (r.players.map clearClaim).find? (fun p => decide (p.id = cid))
      = some dp)
    (hconn : dp.connected = true)
    (hhas : (dp.hand.any fun c =>
      decide (c.suit = d.suit ∧ c.setType = d.setType)) = true)
    (hset : teamHasCompleteSet (r.players.map clearClaim) dp.team
      d.suit d.setType = false)
    (hw : w = if dp.team = .red then Team.blue else Team.red)
    (hk : k < ((r.players.map clearClaim).filter (contribPred d w)).length)
    (hnowin : checkWinCondition
      (r.capturedSets ++ [CapturedSet.mk d.suit d.setType w]) = none) :
    ((r.players.map clearClaim).filter (contribPred d w)).getD k dp ∈
      (r.players.map clearClaim).filter (contribPred d w) ∧
    declareSet r cid d k =
      ({ r with
          players := ((r.players.map clearClaim).map fun p =>
            if decide (p.team = w) &&
                decide (p.id ≠ (((r.players.map clearClaim).filter
                  (contribPred d w)).getD k dp).id) &&
                decide (0 < p.hand.length) then
              { p with canClaimTurn := true }
            else p).map (stripSet d)
          currentTurnPlayerId :=
            some (((r.players.map clearClaim).filter
              (contribPred d w)).getD k dp).id
          lastAction := some "set declared"
          capturedSets :=
            r.capturedSets ++ [CapturedSet.mk d.suit d.setType w] },
       .ok) := by
  subst hw
  refine ⟨getD_mem hk dp, ?_⟩
  have hhset : ¬ teamHasCompleteSet (r.players.map clearClaim) dp.team
      d.suit d.setType = true := by
    rw [hset]
    decide
  have hcontrib : (r.players.map clearClaim).filter
      (contribPred d (if dp.team = .red then Team.blue else Team.red)) ≠ [] := by
    intro hnil
    rw [hnil] at hk
    simp at hk
  unfold declareSet
  rw [if_neg (not_not_intro hst)]
  dsimp only
  rw [hfind]
  dsimp only
  rw [if_neg (not_not_intro hconn), if_neg (not_not_intro hhas)]
  simp only [if_neg hhset]
  simp only [if_pos hcontrib]
  exact Prod.ext (captureTail_eq r d _ _ _ _ hnowin) rfl

def cSA : Card := ⟨.spades, .ace, .lower, 100⟩
def cS2 : Card := ⟨.spades, .two, .lower, 101⟩
def cHA : Card := ⟨.hearts, .ace, .lower, 102⟩

def pA : Seat :=
  { id := "a", name := "A", team := .red, hand := [cSA], connected := true }

def pB : Seat :=
  { id := "b", name := "B", team := .blue, hand := [cS2], connected := true }

def pC : Seat :=
  { id := "c", name := "C", team := .blue, hand := [cHA], connected := true }

def rw7 : Room :=
  { roomName := "X", players := [pA, pB, pC], currentTurnPlayerId := some "a",
    capturedSets := [], gameStatus := .playing, winner := none, adminId := "a",
    lastAction := none, playerCount := 6 }

/-- C7 counterexample: A (red) declares lower spades incorrectly.  The only
qualifying opposing member is B (connected, holds a lower-spades card), who
duly becomes the turn holder — but seat C also receives
`canClaimTurn = true`, although C holds no card of the declared set and so
is not a qualifying member. -/
theorem C7_counterexample :
    teamHasCompleteSet (rw7.players.map clearClaim) Team.red Suit.spades
      SetType.lower = false ∧
    (pC.hand.any fun c =>
      decide (c.suit = Suit.spades ∧ c.setType = SetType.lower)) = false ∧
    (declareSet rw7 "a" dSL 0).2 = .ok ∧
    (declareSet rw7 "a" dSL 0).1.currentTurnPlayerId = some "b" ∧
    ((declareSet rw7 "a" dSL 0).1.players.map fun q => (q.id, q.canClaimTurn))
      = [("a", false), ("b", false), ("c", true)] :=
  ⟨by decide, by decide, by decide, by decide, by decide⟩

theorem C7_witness :
    rw7.gameStatus = .playing ∧
    (rw7.players.map clearClaim).find? (fun p => decide (p.id = "a"))
      = some pA ∧
    pA.connected = true ∧
    (pA.hand.any fun c =>
      decide (c.suit = dSL.suit ∧ c.setType = dSL.setType)) = true ∧
    teamHasCompleteSet (rw7.players.map clearClaim) pA.team
      dSL.suit dSL.setType = false ∧
    Team.blue = (if pA.team = .red then Team.blue else Team.red) ∧
    0 < ((rw7.players.map clearClaim).filter (contribPred dSL Team.blue)).length ∧
    checkWinCondition
      (rw7.capturedSets ++ [CapturedSet.mk dSL.suit dSL.setType Team.blue])
      = none ∧
    (((rw7.players.map clearClaim).filter (contribPred dSL Team.blue)).getD 0 pA ∈
       (rw7.players.map clearClaim).filter (contribPred dSL Team.blue) ∧
     declareSet rw7 "a" dSL 0 =
       ({ rw7 with
           players := ((rw7.players.map clearClaim).map fun p =>
             if decide (p.team = Team.blue) &&
                 decide (p.id ≠ (((rw7.players.map clearClaim).filter
                   (contribPred dSL Team.blue)).getD 0 pA).id) &&
                 decide (0 < p.hand.length) then
               { p with canClaimTurn := true }
             else p).map (stripSet dSL)
           currentTurnPlayerId :=
             some (((rw7.players.map clearClaim).filter
               (contribPred dSL Team.blue)).getD 0 pA).id
           lastAction := some "set declared"
           capturedSets :=
             rw7.capturedSets ++ [CapturedSet.mk dSL.suit dSL.setType Team.blue] },
        .ok)) :=
  ⟨rfl, by decide, rfl, by decide, by decide, by decide, by decide, by decide,
   C7_claim rw7 "a" dSL 0 pA Team.blue rfl (by decide) rfl (by decide)
     (by decide) (by decide) (by decide) (by decide)⟩
